import Mathlib

/-!
Verification of the allium-check static semantic checker (a TypeScript CLI
for the Allium specification language).  The development shallowly embeds
the analysis pipeline — lexer, recursive-descent parser, symbol-table
builder, reference checker and enum checker — and proves / refutes the
frozen behavioural claims about it.

Modelling conventions:
* JavaScript strings are Lean `String`s restricted to ASCII (the checker's
  own grammar is ASCII); `toLowerCase` is `Char.toLower` per character.
* JavaScript `Map` (insertion-ordered, `set` overwrites in place) is an
  association list `List (String × α)` with `mapSet` / `mapLookup`.
* JavaScript `Set<string>` is a duplicate-free `List String`.
* Non-structural loops of the source carry an explicit fuel argument, with
  a `none` / error result reserved for fuel exhaustion; totality theorems
  show the standard fuel (length of the input plus one) never exhausts.
* Numeric literals keep their raw lexeme (`parseFloat` is not modelled;
  no checked behaviour inspects the numeric value).
-/

set_option linter.unusedVariables false
set_option maxRecDepth 100000

namespace Allium

/-- Source location, 1-based line/column (`types.ts` Loc). -/
structure Loc where
  line : Nat
  col : Nat
deriving DecidableEq, Repr

/-- Diagnostic record (`types.ts` Diagnostic). -/
structure Diagnostic where
  file : String
  line : Nat
  col : Nat
  message : String
  suggestion : Option String
deriving DecidableEq, Repr

/-- Token kinds of `lexer.ts` TokenType (the unused `newline` kind included). -/
inductive TokenType where
  | tEntity | tExternal | tValue | tRule | tWhen | tLet | tRequires | tEnsures
  | tDefault | tDeferred | tOpen | tQuestion | tFor | tThis | tWith | tBecomes
  | tCreated | tConfig | tNow
  | tAnd | tOr | tNot | tIn | tTrue | tFalse | tNull
  | tLBrace | tRBrace | tLParen | tRParen | tLBracket | tRBracket
  | tColon | tComma | tPipe | tQuest | tDot | tFatArrow
  | tEq | tNe | tLt | tLe | tGt | tGe | tPlus | tMinus | tStar | tSlash
  | tIdent | tNumber | tString
  | tEof | tNewline
deriving DecidableEq, Repr

/-- The JS-side name of each token type, used verbatim in parser messages. -/
def tokenTypeName : TokenType → String
  | .tEntity => "entity" | .tExternal => "external" | .tValue => "value"
  | .tRule => "rule" | .tWhen => "when" | .tLet => "let"
  | .tRequires => "requires" | .tEnsures => "ensures" | .tDefault => "default"
  | .tDeferred => "deferred" | .tOpen => "open" | .tQuestion => "question"
  | .tFor => "for" | .tThis => "this" | .tWith => "with" | .tBecomes => "becomes"
  | .tCreated => "created" | .tConfig => "config" | .tNow => "now"
  | .tAnd => "and" | .tOr => "or" | .tNot => "not" | .tIn => "in"
  | .tTrue => "true" | .tFalse => "false" | .tNull => "null"
  | .tLBrace => "\x7b" | .tRBrace => "\x7d" | .tLParen => "(" | .tRParen => ")"
  | .tLBracket => "[" | .tRBracket => "]" | .tColon => ":" | .tComma => ","
  | .tPipe => "|" | .tQuest => "?" | .tDot => "." | .tFatArrow => "=>"
  | .tEq => "=" | .tNe => "!=" | .tLt => "<" | .tLe => "<=" | .tGt => ">"
  | .tGe => ">=" | .tPlus => "+" | .tMinus => "-" | .tStar => "*" | .tSlash => "/"
  | .tIdent => "ident" | .tNumber => "number" | .tString => "string"
  | .tEof => "eof" | .tNewline => "newline"

/-- Token (`lexer.ts` Token). -/
structure Token where
  type : TokenType
  value : String
  loc : Loc
deriving DecidableEq, Repr

/-- Keyword recognition of `lexer.ts` (`KEYWORDS.has` plus the retokenising).
Returns the keyword's token type, or `tIdent` for a non-keyword lexeme. -/
def identTokenType (s : String) : TokenType :=
  if s = "entity" then .tEntity else if s = "external" then .tExternal
  else if s = "value" then .tValue else if s = "rule" then .tRule
  else if s = "when" then .tWhen else if s = "let" then .tLet
  else if s = "requires" then .tRequires else if s = "ensures" then .tEnsures
  else if s = "default" then .tDefault else if s = "deferred" then .tDeferred
  else if s = "open" then .tOpen else if s = "question" then .tQuestion
  else if s = "for" then .tFor else if s = "this" then .tThis
  else if s = "with" then .tWith else if s = "becomes" then .tBecomes
  else if s = "created" then .tCreated else if s = "config" then .tConfig
  else if s = "now" then .tNow else if s = "and" then .tAnd
  else if s = "or" then .tOr else if s = "not" then .tNot
  else if s = "in" then .tIn else if s = "true" then .tTrue
  else if s = "false" then .tFalse else if s = "null" then .tNull
  else .tIdent

/-- The single-character punctuation set of the lexer. -/
def singleTokChars : List Char :=
  ['\x7b', '\x7d', '(', ')', '[', ']', ':', ',', '|', '?', '.', '+', '-', '*', '/']

/-- Token type of a single-character token (total; only applied to members
of `singleTokChars`, the catch-all is unreachable). -/
def charTokenType (c : Char) : TokenType :=
  if c = '\x7b' then .tLBrace else if c = '\x7d' then .tRBrace
  else if c = '(' then .tLParen else if c = ')' then .tRParen
  else if c = '[' then .tLBracket else if c = ']' then .tRBracket
  else if c = ':' then .tColon else if c = ',' then .tComma
  else if c = '|' then .tPipe else if c = '?' then .tQuest
  else if c = '.' then .tDot else if c = '+' then .tPlus
  else if c = '-' then .tMinus else if c = '*' then .tStar
  else if c = '/' then .tSlash else .tNewline

/-- Character class of the regexes `[a-zA-Z_]` (identifier start). -/
def isIdentStart (c : Char) : Bool :=
  ('a' ≤ c && c ≤ 'z') || ('A' ≤ c && c ≤ 'Z') || c = '_'

/-- Character class of the regex `[a-zA-Z0-9_]` (identifier continuation). -/
def isIdentChar (c : Char) : Bool :=
  ('a' ≤ c && c ≤ 'z') || ('A' ≤ c && c ≤ 'Z') || ('0' ≤ c && c ≤ '9') || c = '_'

/-- Character class of the regex `[0-9.]` (number continuation). -/
def isNumChar (c : Char) : Bool :=
  ('0' ≤ c && c ≤ '9') || c = '.'

/-- `advance()` of the lexer: step position and update (line, col); a newline
advances the line and resets the column, everything else (including the
out-of-range case) advances the column. Returns (pos, line, col). -/
def advancePLC (src : List Char) (p l c : Nat) : Nat × Nat × Nat :=
  match src.get? p with
  | some '\n' => (p + 1, l + 1, 1)
  | _ => (p + 1, l, c + 1)

/-- The comment-skipping inner loop of `skipWhitespace`: consume to the next
newline.  The consumed characters are exactly the maximal run of
non-newline characters, so the column advances by their count. -/
def skipCommentLine (src : List Char) (p l c : Nat) : Nat × Nat × Nat :=
  let run := (src.drop p).takeWhile (fun ch => ch ≠ '\n')
  (p + run.length, l, c + run.length)

/-- `skipWhitespace` of `lexer.ts`: spaces, tabs, carriage returns, newlines,
and `--` comments.  Fuelled; `none` is fuel exhaustion (never reached with
fuel > remaining input, see `skipWsF_isSome`). -/
def skipWsF : Nat → List Char → Nat → Nat → Nat → Option (Nat × Nat × Nat)
  | 0, _, _, _, _ => none
  | fuel+1, src, p, l, c =>
    if h : p < src.length then
      let ch := src.get ⟨p, h⟩
      if ch = ' ' || ch = '\t' || ch = '\r' || ch = '\n' then
        let plc := advancePLC src p l c
        skipWsF fuel src plc.1 plc.2.1 plc.2.2
      else if ch = '-' && src.get? (p+1) = some '-' then
        let plc := skipCommentLine src p l c
        skipWsF fuel src plc.1 plc.2.1 plc.2.2
      else
        some (p, l, c)
    else
      some (p, l, c)

/-- `readString` of `lexer.ts`, the body loop after the opening quote was
consumed: accumulate characters until the closing quote or end of input;
a backslash escapes the next character (backslash dropped).  When the
backslash is the final character, the JS source appends
`String(undefined)`, i.e. the text `undefined` — reproduced faithfully. -/
def readStrF : Nat → List Char → Char → Nat → Nat → Nat → List Char →
    Option (List Char × Nat × Nat × Nat)
  | 0, _, _, _, _, _, _ => none
  | fuel+1, src, quote, p, l, c, acc =>
    if h : p < src.length then
      let ch := src.get ⟨p, h⟩
      if ch = quote then
        some (acc, p, l, c)
      else if ch = '\\' then
        let plc1 := advancePLC src p l c
        match src.get? (p+1) with
        | some ch2 =>
          let plc2 := advancePLC src plc1.1 plc1.2.1 plc1.2.2
          readStrF fuel src quote plc2.1 plc2.2.1 plc2.2.2 (acc ++ [ch2])
        | none =>
          let plc2 := advancePLC src plc1.1 plc1.2.1 plc1.2.2
          readStrF fuel src quote plc2.1 plc2.2.1 plc2.2.2
            (acc ++ "undefined".data)
      else
        let plc := advancePLC src p l c
        readStrF fuel src quote plc.1 plc.2.1 plc.2.2 (acc ++ [ch])
    else
      some (acc, p, l, c)

/-- Cons a token onto a fuelled lexer-loop result. -/
def consTok (t : Token) : Option (List Token × Nat × Nat) →
    Option (List Token × Nat × Nat)
  | some (ts, l, c) => some (t :: ts, l, c)
  | none => none

/-- One iteration of the main `while` loop of `lex` in `lexer.ts`, with the
loop continuation abstracted as `rec` (a transparent split of the loop body
from its recursion).  The helper results are sequenced with `Option.bind`,
so model-level fuel exhaustion propagates; helper loops receive fuel
`src.length + 1`, always sufficient. -/
def lexStep (src : List Char) (rec : Nat → Nat → Nat → Option (List Token × Nat × Nat))
    (p l c : Nat) : Option (List Token × Nat × Nat) :=
  if hp : p < src.length then
    (skipWsF (src.length + 1) src p l c).bind fun plc1 =>
      let p1 := plc1.1
      let l1 := plc1.2.1
      let c1 := plc1.2.2
      if hp1 : p1 < src.length then
        let startLoc : Loc := ⟨l1, c1⟩
        let ch := src.get ⟨p1, hp1⟩
        if singleTokChars.contains ch then
          -- multi-char operators are only reachable for = ! < >, which are
          -- not in the single-char set, so this branch mirrors JS order
          let plc := advancePLC src p1 l1 c1
          consTok ⟨charTokenType ch, String.mk [ch], startLoc⟩
            (rec plc.1 plc.2.1 plc.2.2)
        else if ch = '=' ∧ src.get? (p1+1) = some '>' then
          consTok ⟨.tFatArrow, "=>", startLoc⟩ (rec (p1+2) l1 (c1+2))
        else if ch = '!' ∧ src.get? (p1+1) = some '=' then
          consTok ⟨.tNe, "!=", startLoc⟩ (rec (p1+2) l1 (c1+2))
        else if ch = '<' ∧ src.get? (p1+1) = some '=' then
          consTok ⟨.tLe, "<=", startLoc⟩ (rec (p1+2) l1 (c1+2))
        else if ch = '>' ∧ src.get? (p1+1) = some '=' then
          consTok ⟨.tGe, ">=", startLoc⟩ (rec (p1+2) l1 (c1+2))
        else if ch = '<' then
          consTok ⟨.tLt, "<", startLoc⟩ (rec (p1+1) l1 (c1+1))
        else if ch = '>' then
          consTok ⟨.tGt, ">", startLoc⟩ (rec (p1+1) l1 (c1+1))
        else if ch = '=' then
          consTok ⟨.tEq, "=", startLoc⟩ (rec (p1+1) l1 (c1+1))
        else if isIdentStart ch then
          -- readIdent: the guard makes the first character part of the
          -- maximal [a-zA-Z0-9_] run; no such character is a newline
          let rest := (src.drop (p1+1)).takeWhile isIdentChar
          let lexeme := String.mk (ch :: rest)
          consTok ⟨identTokenType lexeme, lexeme, startLoc⟩
            (rec (p1 + 1 + rest.length) l1 (c1 + 1 + rest.length))
        else if '0' ≤ ch ∧ ch ≤ '9' then
          let rest := (src.drop (p1+1)).takeWhile isNumChar
          let lexeme := String.mk (ch :: rest)
          consTok ⟨.tNumber, lexeme, startLoc⟩
            (rec (p1 + 1 + rest.length) l1 (c1 + 1 + rest.length))
        else if ch = '"' ∨ ch = '\'' then
          let plcO := advancePLC src p1 l1 c1
          (readStrF (src.length + 1) src ch plcO.1 plcO.2.1 plcO.2.2 []).bind fun r =>
            let content := r.1
            let p2 := r.2.1
            let l2 := r.2.2.1
            let c2 := r.2.2.2
            let plcC := advancePLC src p2 l2 c2
            consTok ⟨.tString, String.mk content, startLoc⟩
              (rec plcC.1 plcC.2.1 plcC.2.2)
        else
          -- unknown character: silently skipped
          let plc := advancePLC src p1 l1 c1
          rec plc.1 plc.2.1 plc.2.2
      else
        some ([], l1, c1)
  else
    some ([], l, c)

/-- The main `while` loop of `lex`, fuelled: returns the tokens plus the
final (line, col), at which the caller places the `eof` token. -/
def lexLoopF : Nat → List Char → Nat → Nat → Nat → Option (List Token × Nat × Nat)
  | 0, _, _, _, _ => none
  | fuel+1, src, p, l, c => lexStep src (lexLoopF fuel src) p l c

/-- `lex` of `lexer.ts`: run the loop and append the single `eof` token at
the final location.  The `none` fallback is unreachable (`lex_eq_some`). -/
def lex (src : List Char) : List Token :=
  match lexLoopF (src.length + 1) src 0 1 1 with
  | some (toks, l, c) => toks ++ [⟨.tEof, "", ⟨l, c⟩⟩]
  | none => [⟨.tEof, "", ⟨1, 1⟩⟩]

/-! ### AST (`ast.ts`) -/

/-- Type expressions (`ast.ts` TypeExpr). -/
inductive TypeExpr where
  | primitive (name : String)
  | entityRef (name : String)
  | enum (values : List String)
  | optional (inner : TypeExpr)
  | set (inner : TypeExpr)
  | list (inner : TypeExpr)
deriving DecidableEq, Repr

/-- Binary operators (`ast.ts` BinaryOp). -/
inductive BinaryOp where
  | opEq | opNe | opLt | opLe | opGt | opGe
  | opAdd | opSub | opMul | opDiv
  | opAnd | opOr
  | opIn | opWith
deriving DecidableEq, Repr

/-- Unary operators (`ast.ts` UnaryOp). -/
inductive UnaryOp where
  | opNot | opNeg
deriving DecidableEq, Repr

/-- Expressions (`ast.ts` Expr).  Numbers keep the raw lexeme; `parseFloat`
is outside the verified fragment. -/
inductive Expr where
  | ident (name : String) (loc : Loc)
  | number (value : String) (loc : Loc)
  | str (value : String) (loc : Loc)
  | bool (value : Bool) (loc : Loc)
  | null (loc : Loc)
  | enumValue (value : String) (loc : Loc)
  | fieldAccess (object : Expr) (field : String) (loc : Loc)
  | call (callee : Expr) (args : List Expr) (loc : Loc)
  | binary (op : BinaryOp) (left : Expr) (right : Expr) (loc : Loc)
  | unary (op : UnaryOp) (operand : Expr) (loc : Loc)
  | lambda (param : String) (body : Expr) (loc : Loc)
  | joinLookup (entity : String) (keys : List (String × Expr)) (loc : Loc)
  | entityCreated (entity : String) (fields : List (String × Expr)) (loc : Loc)
deriving Repr

/-- Stimulus parameter (`ast.ts` Param). -/
structure Param where
  name : String
  optional : Bool
  loc : Loc
deriving DecidableEq, Repr

/-- Rule triggers (`ast.ts` Trigger). -/
inductive Trigger where
  | stimulus (name : String) (params : List Param) (loc : Loc)
  | stateChange (binding : String) (entity : String) (field : String)
      (value : Expr) (loc : Loc)
  | temporal (expr : Expr) (loc : Loc)
  | derived (expr : Expr) (loc : Loc)
  | created (binding : String) (entity : String) (loc : Loc)
  | chained (name : String) (params : List String) (loc : Loc)
deriving Repr

/-- Let binding (`ast.ts` LetBinding). -/
structure LetBinding where
  name : String
  expr : Expr
  loc : Loc
deriving Repr

/-- Field declaration (`ast.ts` Field). -/
structure Field where
  name : String
  type : TypeExpr
  loc : Loc
deriving DecidableEq, Repr

/-- Relationship member (`ast.ts` Relationship). -/
structure Relationship where
  name : String
  target : String
  condition : String
  loc : Loc
deriving DecidableEq, Repr

/-- Projection member (`ast.ts` Projection). -/
structure Projection where
  name : String
  source : String
  filter : Expr
  loc : Loc
deriving Repr

/-- Derived member (`ast.ts` Derived). -/
structure Derived where
  name : String
  expr : Expr
  loc : Loc
deriving Repr

/-- Entity declaration (`ast.ts` Entity; the constant `kind` tag dropped). -/
structure Entity where
  name : String
  fields : List Field
  relationships : List Relationship
  projections : List Projection
  derived : List Derived
  loc : Loc
deriving Repr

/-- Value-type declaration (`ast.ts` ValueType). -/
structure ValueType where
  name : String
  fields : List Field
  loc : Loc
deriving DecidableEq, Repr

/-- External-entity declaration (`ast.ts` ExternalEntity). -/
structure ExternalEntity where
  name : String
  fields : List Field
  loc : Loc
deriving DecidableEq, Repr

/-- Default declaration (`ast.ts` Default; renamed to avoid the core class). -/
structure DefaultDecl where
  name : String
  value : Expr
  loc : Loc
deriving Repr

/-- Rule declaration (`ast.ts` Rule). -/
structure Rule where
  name : String
  trigger : Trigger
  lets : List LetBinding
  requires : List Expr
  ensures : List Expr
  loc : Loc
deriving Repr

/-- Deferred specification (`ast.ts` DeferredSpec; the optional `location`
string is never set by the parser and is dropped). -/
structure DeferredSpec where
  name : String
  description : String
  loc : Loc
deriving DecidableEq, Repr

/-- Open question (`ast.ts` OpenQuestion). -/
structure OpenQuestion where
  question : String
  loc : Loc
deriving DecidableEq, Repr

/-- Top-level file node (`ast.ts` AlliumFile). -/
structure AlliumFile where
  externals : List ExternalEntity
  values : List ValueType
  entities : List Entity
  defaults : List DefaultDecl
  rules : List Rule
  deferred : List DeferredSpec
  openQuestions : List OpenQuestion
deriving Repr

def emptyAlliumFile : AlliumFile := ⟨[], [], [], [], [], [], []⟩

/-! ### Parser (`parser.ts`) -/

/-- Parser failure: a source diagnostic, or model-level fuel exhaustion
(the latter has no JS counterpart; the JS parser always terminates). -/
inductive PErr where
  | diag (d : Diagnostic)
  | outOfFuel
deriving DecidableEq, Repr

def defaultEofToken : Token := ⟨.tEof, "", ⟨0, 0⟩⟩

/-- `Parser.peek`: token at `pos + off`, or the last token when out of
range (`?? this.tokens[this.tokens.length - 1]`). -/
def peekT (toks : List Token) (pos : Nat) (off : Nat) : Token :=
  (toks.get? (pos + off)).getD ((toks.get? (toks.length - 1)).getD defaultEofToken)

/-- `Parser.at`. -/
def atT (toks : List Token) (pos : Nat) (ty : TokenType) : Bool :=
  decide ((peekT toks pos 0).type = ty)

/-- `this.peek(off).type === ty`. -/
def atOffT (toks : List Token) (pos : Nat) (off : Nat) (ty : TokenType) : Bool :=
  decide ((peekT toks pos off).type = ty)

/-- `Parser.atAny`. -/
def atAnyT (toks : List Token) (pos : Nat) (tys : List TokenType) : Bool :=
  tys.contains (peekT toks pos 0).type

/-- `Parser.error`: diagnostic at the current token's location. -/
def perr (toks : List Token) (fn : String) (pos : Nat) (msg : String) : PErr :=
  .diag ⟨fn, (peekT toks pos 0).loc.line, (peekT toks pos 0).loc.col, msg, none⟩

/-- `Parser.expect`. -/
def expectT (toks : List Token) (fn : String) (pos : Nat) (ty : TokenType) :
    Except PErr (Token × Nat) :=
  if atT toks pos ty then .ok (peekT toks pos 0, pos + 1)
  else .error (perr toks fn pos
    ("expected '" ++ tokenTypeName ty ++ "', got '"
      ++ tokenTypeName (peekT toks pos 0).type ++ "'"))

/-- The closed primitive list of `Parser.identToType`. -/
def primitives : List String :=
  ["String", "Integer", "Decimal", "Boolean", "Timestamp", "Duration", "Email", "URL"]

/-- `Parser.identToType`. -/
def identToType (name : String) : TypeExpr :=
  if primitives.contains name then .primitive name else .entityRef name

/-- `Parser.exprContainsNow`: note it recurses only into binary operands
and field-access objects. -/
def exprContainsNow : Expr → Bool
  | .ident name _ => name = "now"
  | .binary _ left right _ => exprContainsNow left || exprContainsNow right
  | .fieldAccess object _ _ => exprContainsNow object
  | _ => false

/-- The trigger heuristic's comparison test on the top-level operator
(`expr.kind === 'binary' && (op === '<=' || '<' || '>=' || '>')`). -/
def topCmpOp : Expr → Bool
  | .binary op _ _ _ => op = .opLe || op = .opLt || op = .opGe || op = .opGt
  | _ => false

/-- Map a comparison/arithmetic token to its BinaryOp (`as AST.BinaryOp`);
only applied under an `atAny` guard, the catch-all is unreachable. -/
def tokToBinOp : TokenType → BinaryOp
  | .tEq => .opEq | .tNe => .opNe | .tLt => .opLt | .tLe => .opLe
  | .tGt => .opGt | .tGe => .opGe | .tPlus => .opAdd | .tMinus => .opSub
  | .tStar => .opMul | .tSlash => .opDiv | .tAnd => .opAnd | .tOr => .opOr
  | .tIn => .opIn | .tWith => .opWith
  | _ => .opEq

/-- JS `String.prototype.trim` on the whitespace actually produced here. -/
def isJsWs (c : Char) : Bool := c = ' ' || c = '\t' || c = '\n' || c = '\r'

def strTrim (s : String) : String :=
  String.mk (((s.data.dropWhile isJsWs).reverse.dropWhile isJsWs).reverse)

/-- Result of `Parser.parseTypeOrExpr`. -/
inductive TypeOrExpr where
  | type (t : TypeExpr)
  | expr (e : Expr)
deriving Repr

mutual

/-- `Parser.parseFile`: top-level dispatch loop (accumulator-passing). -/
def parseFileF : Nat → List Token → String → Nat → AlliumFile →
    Except PErr (AlliumFile × Nat)
  | 0, _, _, _, _ => .error .outOfFuel
  | fuel+1, toks, fn, pos, acc =>
    if atT toks pos .tEof then .ok (acc, pos)
    else if atT toks pos .tExternal then do
      let (x, pos) ← parseExternalEntityF fuel toks fn pos
      parseFileF fuel toks fn pos { acc with externals := acc.externals ++ [x] }
    else if atT toks pos .tValue then do
      let (x, pos) ← parseValueTypeF fuel toks fn pos
      parseFileF fuel toks fn pos { acc with values := acc.values ++ [x] }
    else if atT toks pos .tEntity then do
      let (x, pos) ← parseEntityF fuel toks fn pos
      parseFileF fuel toks fn pos { acc with entities := acc.entities ++ [x] }
    else if atT toks pos .tDefault then do
      let (x, pos) ← parseDefaultF fuel toks fn pos
      parseFileF fuel toks fn pos { acc with defaults := acc.defaults ++ [x] }
    else if atT toks pos .tRule then do
      let (x, pos) ← parseRuleF fuel toks fn pos
      parseFileF fuel toks fn pos { acc with rules := acc.rules ++ [x] }
    else if atT toks pos .tDeferred then do
      let (x, pos) ← parseDeferredF fuel toks fn pos
      parseFileF fuel toks fn pos { acc with deferred := acc.deferred ++ [x] }
    else if atT toks pos .tOpen then do
      let (x, pos) ← parseOpenQuestionF fuel toks fn pos
      parseFileF fuel toks fn pos { acc with openQuestions := acc.openQuestions ++ [x] }
    else
      .error (perr toks fn pos
        ("unexpected token '" ++ tokenTypeName (peekT toks pos 0).type ++ "'"))
termination_by structural fuel => fuel

/-- `Parser.parseExternalEntity`. -/
def parseExternalEntityF : Nat → List Token → String → Nat →
    Except PErr (ExternalEntity × Nat)
  | 0, _, _, _ => .error .outOfFuel
  | fuel+1, toks, fn, pos => do
    let loc := (peekT toks pos 0).loc
    let (_, pos) ← expectT toks fn pos .tExternal
    let (_, pos) ← expectT toks fn pos .tEntity
    let (nameTok, pos) ← expectT toks fn pos .tIdent
    let (_, pos) ← expectT toks fn pos .tLBrace
    let (fields, pos) ← parseFieldsF fuel toks fn pos []
    let (_, pos) ← expectT toks fn pos .tRBrace
    .ok (⟨nameTok.value, fields, loc⟩, pos)

/-- `Parser.parseValueType`. -/
def parseValueTypeF : Nat → List Token → String → Nat →
    Except PErr (ValueType × Nat)
  | 0, _, _, _ => .error .outOfFuel
  | fuel+1, toks, fn, pos => do
    let loc := (peekT toks pos 0).loc
    let (_, pos) ← expectT toks fn pos .tValue
    let (nameTok, pos) ← expectT toks fn pos .tIdent
    let (_, pos) ← expectT toks fn pos .tLBrace
    let (fields, pos) ← parseFieldsF fuel toks fn pos []
    let (_, pos) ← expectT toks fn pos .tRBrace
    .ok (⟨nameTok.value, fields, loc⟩, pos)

/-- `Parser.parseFields` loop. -/
def parseFieldsF : Nat → List Token → String → Nat → List Field →
    Except PErr (List Field × Nat)
  | 0, _, _, _, _ => .error .outOfFuel
  | fuel+1, toks, fn, pos, acc =>
    if !(atT toks pos .tRBrace) && !(atT toks pos .tEof) then do
      let loc := (peekT toks pos 0).loc
      let (nameTok, pos) ← expectT toks fn pos .tIdent
      let (_, pos) ← expectT toks fn pos .tColon
      let (ty, pos) ← parseTypeF fuel toks fn pos
      parseFieldsF fuel toks fn pos (acc ++ [⟨nameTok.value, ty, loc⟩])
    else .ok (acc, pos)
termination_by structural fuel => fuel

/-- `Parser.parseType`. -/
def parseTypeF : Nat → List Token → String → Nat → Except PErr (TypeExpr × Nat)
  | 0, _, _, _ => .error .outOfFuel
  | fuel+1, toks, fn, pos =>
    if atT toks pos .tIdent then do
      let name := (peekT toks pos 0).value
      let pos := pos + 1
      if name = "Set" || name = "List" then do
        let (_, pos) ← expectT toks fn pos .tLt
        let (inner, pos) ← parseTypeF fuel toks fn pos
        let (_, pos) ← expectT toks fn pos .tGt
        .ok (if name = "Set" then .set inner else .list inner, pos)
      else if atT toks pos .tPipe then do
        let (values, pos) ← parsePipeTailF fuel toks fn pos [name]
        .ok (.enum values, pos)
      else if atT toks pos .tQuest then
        .ok (.optional (identToType name), pos + 1)
      else
        .ok (identToType name, pos)
    else .error (perr toks fn pos "expected type")
termination_by structural fuel => fuel

/-- The `while (this.at('|'))` member-collection loop shared by the three
enum productions. -/
def parsePipeTailF : Nat → List Token → String → Nat → List String →
    Except PErr (List String × Nat)
  | 0, _, _, _, _ => .error .outOfFuel
  | fuel+1, toks, fn, pos, values =>
    if atT toks pos .tPipe then do
      let pos := pos + 1
      let (tok, pos) ← expectT toks fn pos .tIdent
      parsePipeTailF fuel toks fn pos (values ++ [tok.value])
    else .ok (values, pos)
termination_by structural fuel => fuel

/-- `Parser.parseEntity`. -/
def parseEntityF : Nat → List Token → String → Nat → Except PErr (Entity × Nat)
  | 0, _, _, _ => .error .outOfFuel
  | fuel+1, toks, fn, pos => do
    let loc := (peekT toks pos 0).loc
    let (_, pos) ← expectT toks fn pos .tEntity
    let (nameTok, pos) ← expectT toks fn pos .tIdent
    let (_, pos) ← expectT toks fn pos .tLBrace
    let (mems, pos) ← parseEntityMembersF fuel toks fn pos [] [] [] []
    let (_, pos) ← expectT toks fn pos .tRBrace
    .ok (⟨nameTok.value, mems.1, mems.2.1, mems.2.2.1, mems.2.2.2, loc⟩, pos)

/-- The entity-member disambiguation loop of `Parser.parseEntity`. -/
def parseEntityMembersF : Nat → List Token → String → Nat → List Field →
    List Relationship → List Projection → List Derived →
    Except PErr ((List Field × List Relationship × List Projection × List Derived) × Nat)
  | 0, _, _, _, _, _, _, _ => .error .outOfFuel
  | fuel+1, toks, fn, pos, fs, rels, projs, ders =>
    if !(atT toks pos .tRBrace) && !(atT toks pos .tEof) then do
      let memberLoc := (peekT toks pos 0).loc
      let (memberTok, pos) ← expectT toks fn pos .tIdent
      let (_, pos) ← expectT toks fn pos .tColon
      if atT toks pos .tIdent && atOffT toks pos 1 .tFor then do
        let (targetTok, pos) ← expectT toks fn pos .tIdent
        let (_, pos) ← expectT toks fn pos .tFor
        let (_, pos) ← expectT toks fn pos .tThis
        let (condTok, pos) ← expectT toks fn pos .tIdent
        parseEntityMembersF fuel toks fn pos fs
          (rels ++ [⟨memberTok.value, targetTok.value, condTok.value, memberLoc⟩]) projs ders
      else if atT toks pos .tIdent && atOffT toks pos 1 .tWith then do
        let (srcTok, pos) ← expectT toks fn pos .tIdent
        let (_, pos) ← expectT toks fn pos .tWith
        let (filter, pos) ← parseExprF fuel toks fn pos
        parseEntityMembersF fuel toks fn pos fs rels
          (projs ++ [⟨memberTok.value, srcTok.value, filter, memberLoc⟩]) ders
      else do
        let (te, pos) ← parseTypeOrExprF fuel toks fn pos
        match te with
          | .type t =>
            parseEntityMembersF fuel toks fn pos
              (fs ++ [⟨memberTok.value, t, memberLoc⟩]) rels projs ders
          | .expr e =>
            parseEntityMembersF fuel toks fn pos fs rels projs
              (ders ++ [⟨memberTok.value, e, memberLoc⟩])
    else .ok ((fs, rels, projs, ders), pos)
termination_by structural fuel => fuel

/-- `Parser.parseTypeOrExpr`: the field/derived disambiguation heuristic.
Note the `T?` branch wraps the name as `primitive` unconditionally,
unlike `parseType` which goes through `identToType`. -/
def parseTypeOrExprF : Nat → List Token → String → Nat →
    Except PErr (TypeOrExpr × Nat)
  | 0, _, _, _ => .error .outOfFuel
  | fuel+1, toks, fn, pos =>
    if atT toks pos .tIdent then
      let name := (peekT toks pos 0).value
      if (name = "Set" || name = "List") && atOffT toks pos 1 .tLt then do
        let pos := pos + 1
        let (_, pos) ← expectT toks fn pos .tLt
        let (inner, pos) ← parseTypeF fuel toks fn pos
        let (_, pos) ← expectT toks fn pos .tGt
        .ok (.type (if name = "Set" then .set inner else .list inner), pos)
      else if atOffT toks pos 1 .tQuest then
        .ok (.type (.optional (.primitive name)), pos + 2)
      else if atOffT toks pos 1 .tRBrace || atOffT toks pos 1 .tEof
          || atOffT toks pos 1 .tIdent then do
        let tok := peekT toks pos 0
        let pos := pos + 1
        if atT toks pos .tPipe then do
          let (values, pos) ← parsePipeTailF fuel toks fn pos [tok.value]
          .ok (.type (.enum values), pos)
        else
          .ok (.type (identToType tok.value), pos)
      else if atOffT toks pos 1 .tPipe then do
        let v0 := (peekT toks pos 0).value
        let pos := pos + 1
        let (values, pos) ← parsePipeTailF fuel toks fn pos [v0]
        .ok (.type (.enum values), pos)
      else do
        let (e, pos) ← parseExprF fuel toks fn pos
        .ok (.expr e, pos)
    else do
      let (e, pos) ← parseExprF fuel toks fn pos
      .ok (.expr e, pos)

/-- `Parser.parseDefault`. -/
def parseDefaultF : Nat → List Token → String → Nat →
    Except PErr (DefaultDecl × Nat)
  | 0, _, _, _ => .error .outOfFuel
  | fuel+1, toks, fn, pos => do
    let loc := (peekT toks pos 0).loc
    let (_, pos) ← expectT toks fn pos .tDefault
    let (nameTok, pos) ← expectT toks fn pos .tIdent
    let (_, pos) ← expectT toks fn pos .tEq
    let (value, pos) ← parseExprF fuel toks fn pos
    .ok (⟨nameTok.value, value, loc⟩, pos)

/-- `Parser.parseRule`. -/
def parseRuleF : Nat → List Token → String → Nat → Except PErr (Rule × Nat)
  | 0, _, _, _ => .error .outOfFuel
  | fuel+1, toks, fn, pos => do
    let loc := (peekT toks pos 0).loc
    let (_, pos) ← expectT toks fn pos .tRule
    let (nameTok, pos) ← expectT toks fn pos .tIdent
    let (_, pos) ← expectT toks fn pos .tLBrace
    let (body, pos) ← parseRuleBodyF fuel toks fn pos none [] [] []
    let (_, pos) ← expectT toks fn pos .tRBrace
    match body.1 with
    | some trigger =>
      .ok (⟨nameTok.value, trigger, body.2.1, body.2.2.1, body.2.2.2, loc⟩, pos)
    | none =>
      .error (perr toks fn pos ("rule '" ++ nameTok.value ++ "' has no trigger"))

/-- The rule-body keyword dispatch loop of `Parser.parseRule`. -/
def parseRuleBodyF : Nat → List Token → String → Nat → Option Trigger →
    List LetBinding → List Expr → List Expr →
    Except PErr ((Option Trigger × List LetBinding × List Expr × List Expr) × Nat)
  | 0, _, _, _, _, _, _, _ => .error .outOfFuel
  | fuel+1, toks, fn, pos, trigger, lets, reqs, enss =>
    if !(atT toks pos .tRBrace) && !(atT toks pos .tEof) then
      if atT toks pos .tWhen then do
        let pos := pos + 1
        let (_, pos) ← expectT toks fn pos .tColon
        let (t, pos) ← parseTriggerF fuel toks fn pos
        parseRuleBodyF fuel toks fn pos (some t) lets reqs enss
      else if atT toks pos .tLet then do
        let (b, pos) ← parseLetBindingF fuel toks fn pos
        parseRuleBodyF fuel toks fn pos trigger (lets ++ [b]) reqs enss
      else if atT toks pos .tRequires then do
        let pos := pos + 1
        let (_, pos) ← expectT toks fn pos .tColon
        let (e, pos) ← parseExprF fuel toks fn pos
        parseRuleBodyF fuel toks fn pos trigger lets (reqs ++ [e]) enss
      else if atT toks pos .tEnsures then do
        let pos := pos + 1
        let (_, pos) ← expectT toks fn pos .tColon
        let (e, pos) ← parseExprF fuel toks fn pos
        parseRuleBodyF fuel toks fn pos trigger lets reqs (enss ++ [e])
      else
        .error (perr toks fn pos
          ("unexpected token in rule: '" ++ tokenTypeName (peekT toks pos 0).type ++ "'"))
    else .ok ((trigger, lets, reqs, enss), pos)
termination_by structural fuel => fuel

/-- `Parser.parseTrigger`. -/
def parseTriggerF : Nat → List Token → String → Nat → Except PErr (Trigger × Nat)
  | 0, _, _, _ => .error .outOfFuel
  | fuel+1, toks, fn, pos =>
    let loc := (peekT toks pos 0).loc
    if atT toks pos .tIdent && atOffT toks pos 1 .tColon then do
      let binding := (peekT toks pos 0).value
      let pos := pos + 2
      let (entityTok, pos) ← expectT toks fn pos .tIdent
      if atT toks pos .tDot then do
        let pos := pos + 1
        if atT toks pos .tCreated then
          .ok (.created binding entityTok.value loc, pos + 1)
        else do
          let (fieldTok, pos) ← expectT toks fn pos .tIdent
          let (_, pos) ← expectT toks fn pos .tBecomes
          let (value, pos) ← parseExprF fuel toks fn pos
          .ok (.stateChange binding entityTok.value fieldTok.value value loc, pos)
      else .error (perr toks fn pos "expected \".\" after entity name in trigger")
    else if atT toks pos .tIdent && atOffT toks pos 1 .tLParen then do
      let name := (peekT toks pos 0).value
      let pos := pos + 1
      let (_, pos) ← expectT toks fn pos .tLParen
      let (params, pos) ← parseStimulusParamsF fuel toks fn pos []
      let (_, pos) ← expectT toks fn pos .tRParen
      .ok (.stimulus name params loc, pos)
    else do
      let (e, pos) ← parseExprF fuel toks fn pos
      if topCmpOp e && exprContainsNow e then
        .ok (.temporal e loc, pos)
      else
        .ok (.derived e loc, pos)

/-- The stimulus parameter-list loop of `Parser.parseTrigger`. -/
def parseStimulusParamsF : Nat → List Token → String → Nat → List Param →
    Except PErr (List Param × Nat)
  | 0, _, _, _, _ => .error .outOfFuel
  | fuel+1, toks, fn, pos, params =>
    if !(atT toks pos .tRParen) && !(atT toks pos .tEof) then do
      let paramLoc := (peekT toks pos 0).loc
      let (nameTok, pos) ← expectT toks fn pos .tIdent
      let optional := atT toks pos .tQuest
      let pos := if optional then pos + 1 else pos
      let params := params ++ [⟨nameTok.value, optional, paramLoc⟩]
      if !(atT toks pos .tRParen) then do
        let (_, pos) ← expectT toks fn pos .tComma
        parseStimulusParamsF fuel toks fn pos params
      else parseStimulusParamsF fuel toks fn pos params
    else .ok (params, pos)
termination_by structural fuel => fuel

/-- `Parser.parseLetBinding`. -/
def parseLetBindingF : Nat → List Token → String → Nat →
    Except PErr (LetBinding × Nat)
  | 0, _, _, _ => .error .outOfFuel
  | fuel+1, toks, fn, pos => do
    let loc := (peekT toks pos 0).loc
    let (_, pos) ← expectT toks fn pos .tLet
    let (nameTok, pos) ← expectT toks fn pos .tIdent
    let (_, pos) ← expectT toks fn pos .tEq
    let (e, pos) ← parseExprF fuel toks fn pos
    .ok (⟨nameTok.value, e, loc⟩, pos)

/-- `Parser.parseExpr`. -/
def parseExprF : Nat → List Token → String → Nat → Except PErr (Expr × Nat)
  | 0, _, _, _ => .error .outOfFuel
  | fuel+1, toks, fn, pos => parseOrF fuel toks fn pos
termination_by structural fuel => fuel

/-- `Parser.parseOr`. -/
def parseOrF : Nat → List Token → String → Nat → Except PErr (Expr × Nat)
  | 0, _, _, _ => .error .outOfFuel
  | fuel+1, toks, fn, pos => do
    let (left, pos) ← parseAndF fuel toks fn pos
    parseOrLoopF fuel toks fn pos left
termination_by structural fuel => fuel

def parseOrLoopF : Nat → List Token → String → Nat → Expr →
    Except PErr (Expr × Nat)
  | 0, _, _, _, _ => .error .outOfFuel
  | fuel+1, toks, fn, pos, left =>
    if atT toks pos .tOr then do
      let loc := (peekT toks pos 0).loc
      let pos := pos + 1
      let (right, pos) ← parseAndF fuel toks fn pos
      parseOrLoopF fuel toks fn pos (.binary .opOr left right loc)
    else .ok (left, pos)
termination_by structural fuel => fuel

/-- `Parser.parseAnd`. -/
def parseAndF : Nat → List Token → String → Nat → Except PErr (Expr × Nat)
  | 0, _, _, _ => .error .outOfFuel
  | fuel+1, toks, fn, pos => do
    let (left, pos) ← parseComparisonF fuel toks fn pos
    parseAndLoopF fuel toks fn pos left
termination_by structural fuel => fuel

def parseAndLoopF : Nat → List Token → String → Nat → Expr →
    Except PErr (Expr × Nat)
  | 0, _, _, _, _ => .error .outOfFuel
  | fuel+1, toks, fn, pos, left =>
    if atT toks pos .tAnd then do
      let loc := (peekT toks pos 0).loc
      let pos := pos + 1
      let (right, pos) ← parseComparisonF fuel toks fn pos
      parseAndLoopF fuel toks fn pos (.binary .opAnd left right loc)
    else .ok (left, pos)
termination_by structural fuel => fuel

/-- `Parser.parseComparison`. -/
def parseComparisonF : Nat → List Token → String → Nat → Except PErr (Expr × Nat)
  | 0, _, _, _ => .error .outOfFuel
  | fuel+1, toks, fn, pos => do
    let (left, pos) ← parseAdditiveF fuel toks fn pos
    parseComparisonLoopF fuel toks fn pos left
termination_by structural fuel => fuel

def parseComparisonLoopF : Nat → List Token → String → Nat → Expr →
    Except PErr (Expr × Nat)
  | 0, _, _, _, _ => .error .outOfFuel
  | fuel+1, toks, fn, pos, left =>
    if atAnyT toks pos [.tEq, .tNe, .tLt, .tLe, .tGt, .tGe, .tIn, .tWith] then do
      let loc := (peekT toks pos 0).loc
      let op := tokToBinOp (peekT toks pos 0).type
      let pos := pos + 1
      let (right, pos) ← parseAdditiveF fuel toks fn pos
      parseComparisonLoopF fuel toks fn pos (.binary op left right loc)
    else .ok (left, pos)
termination_by structural fuel => fuel

/-- `Parser.parseAdditive`. -/
def parseAdditiveF : Nat → List Token → String → Nat → Except PErr (Expr × Nat)
  | 0, _, _, _ => .error .outOfFuel
  | fuel+1, toks, fn, pos => do
    let (left, pos) ← parseMultiplicativeF fuel toks fn pos
    parseAdditiveLoopF fuel toks fn pos left
termination_by structural fuel => fuel

def parseAdditiveLoopF : Nat → List Token → String → Nat → Expr →
    Except PErr (Expr × Nat)
  | 0, _, _, _, _ => .error .outOfFuel
  | fuel+1, toks, fn, pos, left =>
    if atAnyT toks pos [.tPlus, .tMinus] then do
      let loc := (peekT toks pos 0).loc
      let op := tokToBinOp (peekT toks pos 0).type
      let pos := pos + 1
      let (right, pos) ← parseMultiplicativeF fuel toks fn pos
      parseAdditiveLoopF fuel toks fn pos (.binary op left right loc)
    else .ok (left, pos)
termination_by structural fuel => fuel

/-- `Parser.parseMultiplicative`. -/
def parseMultiplicativeF : Nat → List Token → String → Nat →
    Except PErr (Expr × Nat)
  | 0, _, _, _ => .error .outOfFuel
  | fuel+1, toks, fn, pos => do
    let (left, pos) ← parseUnaryF fuel toks fn pos
    parseMultiplicativeLoopF fuel toks fn pos left
termination_by structural fuel => fuel

def parseMultiplicativeLoopF : Nat → List Token → String → Nat → Expr →
    Except PErr (Expr × Nat)
  | 0, _, _, _, _ => .error .outOfFuel
  | fuel+1, toks, fn, pos, left =>
    if atAnyT toks pos [.tStar, .tSlash] then do
      let loc := (peekT toks pos 0).loc
      let op := tokToBinOp (peekT toks pos 0).type
      let pos := pos + 1
      let (right, pos) ← parseUnaryF fuel toks fn pos
      parseMultiplicativeLoopF fuel toks fn pos (.binary op left right loc)
    else .ok (left, pos)
termination_by structural fuel => fuel

/-- `Parser.parseUnary`. -/
def parseUnaryF : Nat → List Token → String → Nat → Except PErr (Expr × Nat)
  | 0, _, _, _ => .error .outOfFuel
  | fuel+1, toks, fn, pos =>
    if atT toks pos .tNot then do
      let loc := (peekT toks pos 0).loc
      let pos := pos + 1
      let (operand, pos) ← parseUnaryF fuel toks fn pos
      .ok (.unary .opNot operand loc, pos)
    else if atT toks pos .tMinus then do
      let loc := (peekT toks pos 0).loc
      let pos := pos + 1
      let (operand, pos) ← parseUnaryF fuel toks fn pos
      .ok (.unary .opNeg operand loc, pos)
    else parsePostfixExprF fuel toks fn pos
termination_by structural fuel => fuel

/-- `Parser.parsePostfix` (primary plus postfix loop). -/
def parsePostfixExprF : Nat → List Token → String → Nat →
    Except PErr (Expr × Nat)
  | 0, _, _, _ => .error .outOfFuel
  | fuel+1, toks, fn, pos => do
    let (e, pos) ← parsePrimaryF fuel toks fn pos
    parsePostfixLoopF fuel toks fn pos e
termination_by structural fuel => fuel

def parsePostfixLoopF : Nat → List Token → String → Nat → Expr →
    Except PErr (Expr × Nat)
  | 0, _, _, _, _ => .error .outOfFuel
  | fuel+1, toks, fn, pos, e =>
    if atT toks pos .tDot then do
      let loc := (peekT toks pos 0).loc
      let pos := pos + 1
      let (fieldTok, pos) ← expectT toks fn pos .tIdent
      if atT toks pos .tLParen then do
        let pos := pos + 1
        let (args, pos) ← parseCallArgsF fuel toks fn pos []
        let (_, pos) ← expectT toks fn pos .tRParen
        parsePostfixLoopF fuel toks fn pos
          (.call (.fieldAccess e fieldTok.value loc) args loc)
      else
        parsePostfixLoopF fuel toks fn pos (.fieldAccess e fieldTok.value loc)
    else if atT toks pos .tLParen then do
      let loc := (peekT toks pos 0).loc
      let pos := pos + 1
      let (args, pos) ← parseCallArgsF fuel toks fn pos []
      let (_, pos) ← expectT toks fn pos .tRParen
      parsePostfixLoopF fuel toks fn pos (.call e args loc)
    else if atT toks pos .tLBrace then do
      let loc := (peekT toks pos 0).loc
      let pos := pos + 1
      let (keys, pos) ← parseJoinKeysF fuel toks fn pos []
      let (_, pos) ← expectT toks fn pos .tRBrace
      match e with
      | .ident name _ => parsePostfixLoopF fuel toks fn pos (.joinLookup name keys loc)
      | _ => .error (perr toks fn pos "join lookup must be on entity name")
    else .ok (e, pos)
termination_by structural fuel => fuel

/-- The argument-list loop of call expressions (terminated by `)`). -/
def parseCallArgsF : Nat → List Token → String → Nat → List Expr →
    Except PErr (List Expr × Nat)
  | 0, _, _, _, _ => .error .outOfFuel
  | fuel+1, toks, fn, pos, args =>
    if !(atT toks pos .tRParen) && !(atT toks pos .tEof) then do
      let (a, pos) ← parseExprF fuel toks fn pos
      let args := args ++ [a]
      if !(atT toks pos .tRParen) then do
        let (_, pos) ← expectT toks fn pos .tComma
        parseCallArgsF fuel toks fn pos args
      else parseCallArgsF fuel toks fn pos args
    else .ok (args, pos)
termination_by structural fuel => fuel

/-- The element loop of array literals (terminated by `]`). -/
def parseArrayElemsF : Nat → List Token → String → Nat → List Expr →
    Except PErr (List Expr × Nat)
  | 0, _, _, _, _ => .error .outOfFuel
  | fuel+1, toks, fn, pos, args =>
    if !(atT toks pos .tRBracket) && !(atT toks pos .tEof) then do
      let (a, pos) ← parseExprF fuel toks fn pos
      let args := args ++ [a]
      if !(atT toks pos .tRBracket) then do
        let (_, pos) ← expectT toks fn pos .tComma
        parseArrayElemsF fuel toks fn pos args
      else parseArrayElemsF fuel toks fn pos args
    else .ok (args, pos)
termination_by structural fuel => fuel

/-- The key loop of join-lookup expressions; `\x7bfield\x7d` shorthand gets
an `ident` whose location is the token after the field name, as in the
source. -/
def parseJoinKeysF : Nat → List Token → String → Nat → List (String × Expr) →
    Except PErr (List (String × Expr) × Nat)
  | 0, _, _, _, _ => .error .outOfFuel
  | fuel+1, toks, fn, pos, keys =>
    if !(atT toks pos .tRBrace) && !(atT toks pos .tEof) then do
      let (fieldTok, pos) ← expectT toks fn pos .tIdent
      let (keys, pos) ←
        (if atT toks pos .tColon then do
          let pos := pos + 1
          let (v, pos2) ← parseExprF fuel toks fn pos
          Except.ok (keys ++ [(fieldTok.value, v)], pos2)
        else
          Except.ok
            (keys ++ [(fieldTok.value, Expr.ident fieldTok.value (peekT toks pos 0).loc)], pos))
      if !(atT toks pos .tRBrace) then do
        let (_, pos) ← expectT toks fn pos .tComma
        parseJoinKeysF fuel toks fn pos keys
      else parseJoinKeysF fuel toks fn pos keys
    else .ok (keys, pos)
termination_by structural fuel => fuel

/-- The field-initialiser loop of `Entity.created(...)`. -/
def parseCreatedFieldsF : Nat → List Token → String → Nat → List (String × Expr) →
    Except PErr (List (String × Expr) × Nat)
  | 0, _, _, _, _ => .error .outOfFuel
  | fuel+1, toks, fn, pos, fields =>
    if !(atT toks pos .tRParen) && !(atT toks pos .tEof) then do
      let (fieldTok, pos) ← expectT toks fn pos .tIdent
      let (_, pos) ← expectT toks fn pos .tColon
      let (v, pos) ← parseExprF fuel toks fn pos
      let fields := fields ++ [(fieldTok.value, v)]
      if !(atT toks pos .tRParen) then do
        let (_, pos) ← expectT toks fn pos .tComma
        parseCreatedFieldsF fuel toks fn pos fields
      else parseCreatedFieldsF fuel toks fn pos fields
    else .ok (fields, pos)
termination_by structural fuel => fuel

/-- `Parser.parsePrimary`. -/
def parsePrimaryF : Nat → List Token → String → Nat → Except PErr (Expr × Nat)
  | 0, _, _, _ => .error .outOfFuel
  | fuel+1, toks, fn, pos =>
    let loc := (peekT toks pos 0).loc
    if atT toks pos .tLParen then do
      let pos := pos + 1
      let (e, pos) ← parseExprF fuel toks fn pos
      let (_, pos) ← expectT toks fn pos .tRParen
      .ok (e, pos)
    else if atT toks pos .tNumber then
      .ok (.number (peekT toks pos 0).value loc, pos + 1)
    else if atT toks pos .tString then
      .ok (.str (peekT toks pos 0).value loc, pos + 1)
    else if atT toks pos .tTrue then .ok (.bool true loc, pos + 1)
    else if atT toks pos .tFalse then .ok (.bool false loc, pos + 1)
    else if atT toks pos .tNull then .ok (.null loc, pos + 1)
    else if atT toks pos .tNow then .ok (.ident "now" loc, pos + 1)
    else if atT toks pos .tConfig then do
      let pos := pos + 1
      let (_, pos) ← expectT toks fn pos .tSlash
      let (nameTok, pos) ← expectT toks fn pos .tIdent
      .ok (.ident ("config/" ++ nameTok.value) loc, pos)
    else if atT toks pos .tIdent then do
      let name := (peekT toks pos 0).value
      let pos := pos + 1
      if atT toks pos .tFatArrow then do
        let pos := pos + 1
        let (body, pos) ← parseExprF fuel toks fn pos
        .ok (.lambda name body loc, pos)
      else if atT toks pos .tDot && atOffT toks pos 1 .tCreated then do
        let pos := pos + 2
        let (_, pos) ← expectT toks fn pos .tLParen
        let (fields, pos) ← parseCreatedFieldsF fuel toks fn pos []
        let (_, pos) ← expectT toks fn pos .tRParen
        .ok (.entityCreated name fields loc, pos)
      else .ok (.ident name loc, pos)
    else if atT toks pos .tLBracket then do
      let pos := pos + 1
      let (args, pos) ← parseArrayElemsF fuel toks fn pos []
      let (_, pos) ← expectT toks fn pos .tRBracket
      .ok (.call (.ident "__array" loc) args loc, pos)
    else
      .error (perr toks fn pos
        ("unexpected token: '" ++ tokenTypeName (peekT toks pos 0).type ++ "'"))
termination_by structural fuel => fuel

/-- `Parser.parseDeferred`. -/
def parseDeferredF : Nat → List Token → String → Nat →
    Except PErr (DeferredSpec × Nat)
  | 0, _, _, _ => .error .outOfFuel
  | fuel+1, toks, fn, pos => do
    let loc := (peekT toks pos 0).loc
    let (_, pos) ← expectT toks fn pos .tDeferred
    let (nameTok, pos) ← expectT toks fn pos .tIdent
    let (description, pos) ← parseFreeTextF fuel toks fn pos ""
    .ok (⟨nameTok.value, strTrim description, loc⟩, pos)

/-- `Parser.parseOpenQuestion`. -/
def parseOpenQuestionF : Nat → List Token → String → Nat →
    Except PErr (OpenQuestion × Nat)
  | 0, _, _, _ => .error .outOfFuel
  | fuel+1, toks, fn, pos => do
    let loc := (peekT toks pos 0).loc
    let (_, pos) ← expectT toks fn pos .tOpen
    let (_, pos) ← expectT toks fn pos .tQuestion
    let (question, pos) ← parseFreeTextF fuel toks fn pos ""
    .ok (⟨strTrim question, loc⟩, pos)

/-- The free-text accumulation loop shared by `parseDeferred` and
`parseOpenQuestion`. -/
def parseFreeTextF : Nat → List Token → String → Nat → String →
    Except PErr (String × Nat)
  | 0, _, _, _, _ => .error .outOfFuel
  | fuel+1, toks, fn, pos, acc =>
    if !(atAnyT toks pos [.tExternal, .tValue, .tEntity, .tDefault, .tRule,
        .tDeferred, .tOpen, .tEof]) then
      parseFreeTextF fuel toks fn (pos+1) (acc ++ (peekT toks pos 0).value ++ " ")
    else .ok (acc, pos)
termination_by structural fuel => fuel

end

/-- `ParseResult` of `parser.ts`. -/
inductive ParseResult where
  | ok (file : AlliumFile)
  | error (diagnostic : Diagnostic)
deriving Repr

/-- `parse` of `parser.ts` (exception-catching wrapper); `none` is fuel
exhaustion, which has no JS counterpart. -/
def parse (fuel : Nat) (tokens : List Token) (filename : String) :
    Option ParseResult :=
  match parseFileF fuel tokens filename 0 emptyAlliumFile with
  | .ok (file, _) => some (.ok file)
  | .error (.diag d) => some (.error d)
  | .error .outOfFuel => none

/-! ### Symbol table (`symbols.ts`) -/

/-- JS `Map.set`: overwrite in place if the key exists, else append. -/
def mapSet {α : Type} (m : List (String × α)) (k : String) (v : α) :
    List (String × α) :=
  if m.any (fun kv => kv.1 == k) then
    m.map (fun kv => if kv.1 == k then (k, v) else kv)
  else m ++ [(k, v)]

/-- JS `Map.get`. -/
def mapLookup {α : Type} (m : List (String × α)) (k : String) : Option α :=
  (m.find? (fun kv => kv.1 == k)).map (fun kv => kv.2)

/-- JS `Map.has`. -/
def mapHas {α : Type} (m : List (String × α)) (k : String) : Bool :=
  m.any (fun kv => kv.1 == k)

/-- JS `Map.keys()` (insertion order). -/
def mapKeys {α : Type} (m : List (String × α)) : List String :=
  m.map (fun kv => kv.1)

inductive TypeKind where
  | entity | value | external
deriving DecidableEq, Repr

/-- `symbols.ts` FieldInfo. -/
structure FieldInfo where
  name : String
  type : TypeExpr
  enumValues : Option (List String)
deriving DecidableEq, Repr

/-- `symbols.ts` RelationshipInfo. -/
structure RelationshipInfo where
  name : String
  target : String
  condition : String
deriving DecidableEq, Repr

/-- `symbols.ts` ProjectionInfo. -/
structure ProjectionInfo where
  name : String
  source : String
  filter : Expr
deriving Repr

/-- `symbols.ts` DerivedInfo. -/
structure DerivedInfo where
  name : String
  expr : Expr
deriving Repr

/-- `symbols.ts` TypeInfo.  The source also stores a `node` back-reference
to the AST declaration; it is read by no checker and omitted here. -/
structure TypeInfo where
  kind : TypeKind
  name : String
  fields : List (String × FieldInfo)
  relationships : List (String × RelationshipInfo)
  projections : List (String × ProjectionInfo)
  derived : List (String × DerivedInfo)
deriving Repr

/-- `symbols.ts` SymbolTable. -/
structure SymbolTable where
  types : List (String × TypeInfo)
  defaults : List (String × DefaultDecl)
  rules : List (String × Rule)
deriving Repr

/-- `symbols.ts` buildFieldMap. -/
def buildFieldMap (fields : List Field) : List (String × FieldInfo) :=
  fields.foldl (fun m field =>
    mapSet m field.name
      ⟨field.name, field.type,
        match field.type with
        | .enum values => some values
        | _ => none⟩) []

/-- `symbols.ts` buildSymbols. -/
def buildSymbols (file : AlliumFile) : SymbolTable :=
  let types := file.externals.foldl (fun m ext =>
    mapSet m ext.name ⟨.external, ext.name, buildFieldMap ext.fields, [], [], []⟩)
    ([] : List (String × TypeInfo))
  let types := file.values.foldl (fun m val =>
    mapSet m val.name ⟨.value, val.name, buildFieldMap val.fields, [], [], []⟩) types
  let types := file.entities.foldl (fun m ent =>
    let fields := buildFieldMap ent.fields
    let relationships := ent.relationships.foldl (fun m2 rel =>
      mapSet m2 rel.name ⟨rel.name, rel.target, rel.condition⟩)
      ([] : List (String × RelationshipInfo))
    let projections := ent.projections.foldl (fun m2 proj =>
      mapSet m2 proj.name ⟨proj.name, proj.source, proj.filter⟩)
      ([] : List (String × ProjectionInfo))
    let derived := ent.derived.foldl (fun m2 der =>
      mapSet m2 der.name ⟨der.name, der.expr⟩)
      ([] : List (String × DerivedInfo))
    mapSet m ent.name ⟨.entity, ent.name, fields, relationships, projections, derived⟩)
    types
  let defaults := file.defaults.foldl (fun m d => mapSet m d.name d)
    ([] : List (String × DefaultDecl))
  let rules := file.rules.foldl (fun m rule => mapSet m rule.name rule)
    ([] : List (String × Rule))
  ⟨types, defaults, rules⟩

inductive MemberKind where
  | field | relationship | projection | derived
deriving DecidableEq, Repr

/-- `symbols.ts` getAllMembers. -/
def getAllMembers (typeInfo : TypeInfo) : List (String × MemberKind) :=
  let members := typeInfo.fields.foldl (fun m kv => mapSet m kv.1 .field)
    ([] : List (String × MemberKind))
  let members := typeInfo.relationships.foldl (fun m kv => mapSet m kv.1 .relationship) members
  let members := typeInfo.projections.foldl (fun m kv => mapSet m kv.1 .projection) members
  typeInfo.derived.foldl (fun m kv => mapSet m kv.1 .derived) members

/-- The edit-distance recurrence of `symbols.ts` `levenshtein`, fuelled.
The source fills an `(m+1) × (n+1)` DP matrix with this exact recurrence
(equal heads reuse the diagonal; otherwise one plus the minimum of the
three neighbours, in the source's order dp[i-1][j], dp[i][j-1],
dp[i-1][j-1]); fuel `a.length + b.length` always suffices because every
recursive call drops at least one character. -/
def levF : Nat → List Char → List Char → Nat
  | _, [], b => b.length
  | _, a, [] => a.length
  | fuel+1, x :: xs, y :: ys =>
    if x = y then levF fuel xs ys
    else 1 + min (levF fuel xs (y :: ys)) (min (levF fuel (x :: xs) ys) (levF fuel xs ys))
  | 0, _, _ => 0

/-- `symbols.ts` levenshtein. -/
def levenshtein (a b : String) : Nat := levF (a.length + b.length) a.data b.data

/-- JS `toLowerCase` restricted to ASCII. -/
def lowerStr (s : String) : String := String.mk (s.data.map Char.toLower)

/-- `symbols.ts` findSimilar with the default `maxDistance = 2` (every call
site uses the default): the first candidate attaining the strictly
smallest case-insensitive distance, none when every distance exceeds 2. -/
def findSimilar (name : String) (candidates : List String) : Option String :=
  (candidates.foldl
    (fun acc candidate =>
      let dist := levenshtein (lowerStr name) (lowerStr candidate)
      if dist < acc.2 then (some candidate, dist) else acc)
    ((none : Option String), 3)).1

/-! ### Reference checker (`checks/references.ts`) -/

/-- `ReferenceChecker.looksLikeEnumValue`: the regex `^[a-z][a-z_]*$`. -/
def looksLikeEnumValue (name : String) : Bool :=
  match name.data with
  | [] => false
  | c :: cs => ('a' ≤ c && c ≤ 'z') && cs.all (fun d => ('a' ≤ d && d ≤ 'z') || d = '_')

def builtins : List String :=
  ["now", "true", "false", "null", "verify", "send", "notify", "__array"]

/-- `ReferenceChecker.isBuiltin`; `name.startsWith('config/')` is modelled
over the character lists. -/
def isBuiltin (name : String) : Bool :=
  builtins.contains name || ("config/".data).isPrefixOf name.data

/-- `ReferenceChecker.error` record shape. -/
def mkDiag (fn : String) (line col : Nat) (message : String)
    (suggestion : Option String) : Diagnostic :=
  ⟨fn, line, col, message, suggestion⟩

/-- `ReferenceChecker.checkTypeRef`: every diagnostic carries the location
passed in, which at the call sites is the containing field's location. -/
def checkTypeRef (st : SymbolTable) (fn : String) : TypeExpr → Loc → List Diagnostic
  | .entityRef name, loc =>
    if !(mapHas st.types name) then
      [mkDiag fn loc.line loc.col ("undefined type '" ++ name ++ "'")
        (findSimilar name (mapKeys st.types))]
    else []
  | .optional inner, loc => checkTypeRef st fn inner loc
  | .set inner, loc => checkTypeRef st fn inner loc
  | .list inner, loc => checkTypeRef st fn inner loc
  | .primitive _, _ => []
  | .enum _, _ => []

/-- JS `Set.has` on the bound-variable set. -/
def vsHas (s : List String) (x : String) : Bool := s.contains x

/-- JS `Set.add`. -/
def vsAdd (s : List String) (x : String) : List String :=
  if s.contains x then s else s ++ [x]

/-- JS `Set.delete`. -/
def vsDelete (s : List String) (x : String) : List String := s.erase x

/-- `ReferenceChecker.checkExprInContext`: diagnostics in emission order
together with the mutated bound-variable set; expression lists are
threaded left to right like the source loops.  Fuelled for the nested
lists; fuel 0 is unreachable from `check`'s standard fuel. -/
def checkExprInContext : Nat → SymbolTable → String → List String → Expr → Bool →
    List Diagnostic × List String
  | 0, _, _, bv, _, _ => ([], bv)
  | fuel+1, st, fn, bv, e, skipEnumLikeIdents =>
    match e with
    | .ident name loc =>
      if !(vsHas bv name) && !(mapHas st.types name) && !(isBuiltin name) then
        if skipEnumLikeIdents && looksLikeEnumValue name then ([], bv)
        else
          let allNames := bv ++ mapKeys st.types
          ([mkDiag fn loc.line loc.col ("undefined identifier '" ++ name ++ "'")
            (findSimilar name allNames)], bv)
      else ([], bv)
    | .fieldAccess object _ _ => checkExprInContext fuel st fn bv object skipEnumLikeIdents
    | .call callee args _ =>
      let r1 := checkExprInContext fuel st fn bv callee skipEnumLikeIdents
      let isArrayLiteral : Bool := match callee with
        | .ident n _ => n = "__array"
        | _ => false
      args.foldl (fun acc a =>
        let r := checkExprInContext fuel st fn acc.2 a (skipEnumLikeIdents || isArrayLiteral)
        (acc.1 ++ r.1, r.2)) r1
    | .binary op left right _ =>
      let r1 := checkExprInContext fuel st fn bv left skipEnumLikeIdents
      let r2 :=
        if op = .opEq || op = .opNe || op = .opIn then
          checkExprInContext fuel st fn r1.2 right true
        else
          checkExprInContext fuel st fn r1.2 right skipEnumLikeIdents
      (r1.1 ++ r2.1, r2.2)
    | .unary _ operand _ => checkExprInContext fuel st fn bv operand skipEnumLikeIdents
    | .lambda param body _ =>
      let hadVar := vsHas bv param
      let bv1 := vsAdd bv param
      let r := checkExprInContext fuel st fn bv1 body skipEnumLikeIdents
      (r.1, if !hadVar then vsDelete r.2 param else r.2)
    | .joinLookup entity keys loc =>
      let d0 : List Diagnostic :=
        if !(mapHas st.types entity) then
          [mkDiag fn loc.line loc.col ("undefined entity '" ++ entity ++ "'")
            (findSimilar entity (mapKeys st.types))]
        else []
      keys.foldl (fun acc kv =>
        let r := checkExprInContext fuel st fn acc.2 kv.2 skipEnumLikeIdents
        (acc.1 ++ r.1, r.2)) (d0, bv)
    | .entityCreated entity fields loc =>
      let d0 : List Diagnostic :=
        if !(mapHas st.types entity) then
          [mkDiag fn loc.line loc.col ("undefined entity '" ++ entity ++ "'")
            (findSimilar entity (mapKeys st.types))]
        else []
      fields.foldl (fun acc kv =>
        let r := checkExprInContext fuel st fn acc.2 kv.2 true
        (acc.1 ++ r.1, r.2)) (d0, bv)
    | .number _ _ => ([], bv)
    | .str _ _ => ([], bv)
    | .bool _ _ => ([], bv)
    | .null _ => ([], bv)
    | .enumValue _ _ => ([], bv)
termination_by structural fuel => fuel

/-- `ReferenceChecker.checkTrigger`. -/
def checkTrigger (fuel : Nat) (st : SymbolTable) (fn : String) (bv : List String) :
    Trigger → List Diagnostic × List String
  | .stimulus _ params _ =>
    ([], params.foldl (fun s p => vsAdd s p.name) bv)
  | .stateChange binding entity field value loc =>
    let d0 : List Diagnostic :=
      if !(mapHas st.types entity) then
        [mkDiag fn loc.line loc.col ("undefined entity '" ++ entity ++ "'")
          (findSimilar entity (mapKeys st.types))]
      else
        match mapLookup st.types entity with
        | some typeInfo =>
          let members := getAllMembers typeInfo
          if !(mapHas members field) then
            [mkDiag fn loc.line loc.col
              ("undefined field '" ++ field ++ "' on entity '" ++ entity ++ "'")
              (findSimilar field (mapKeys members))]
          else []
        | none => []
    let bv1 := vsAdd bv binding
    let r := checkExprInContext fuel st fn bv1 value true
    (d0 ++ r.1, r.2)
  | .created binding entity loc =>
    let d0 : List Diagnostic :=
      if !(mapHas st.types entity) then
        [mkDiag fn loc.line loc.col ("undefined entity '" ++ entity ++ "'")
          (findSimilar entity (mapKeys st.types))]
      else []
    (d0, vsAdd bv binding)
  | .temporal e _ => checkExprInContext fuel st fn bv e false
  | .derived e _ => checkExprInContext fuel st fn bv e false
  | .chained _ params _ => ([], params.foldl (fun s p => vsAdd s p) bv)

/-- `ReferenceChecker.checkRule`: the bound set is cleared at entry
(`this.boundVars.clear()`), so the incoming set is irrelevant. -/
def checkRule (fuel : Nat) (st : SymbolTable) (fn : String) (rule : Rule) :
    List Diagnostic × List String :=
  let r0 := checkTrigger fuel st fn [] rule.trigger
  let r1 := rule.lets.foldl (fun acc b =>
    let r := checkExprInContext fuel st fn acc.2 b.expr false
    (acc.1 ++ r.1, vsAdd r.2 b.name)) r0
  let r2 := rule.requires.foldl (fun acc e =>
    let r := checkExprInContext fuel st fn acc.2 e false
    (acc.1 ++ r.1, r.2)) r1
  rule.ensures.foldl (fun acc e =>
    let r := checkExprInContext fuel st fn acc.2 e false
    (acc.1 ++ r.1, r.2)) r2

/-- `ReferenceChecker.checkEntityMembers`. -/
def checkEntityMembers (fuel : Nat) (st : SymbolTable) (fn : String)
    (entity : Entity) : List Diagnostic :=
  match mapLookup st.types entity.name with
  | none => []
  | some typeInfo =>
    let d1 := entity.fields.foldl (fun acc field =>
      acc ++ checkTypeRef st fn field.type field.loc) ([] : List Diagnostic)
    let d2 := entity.relationships.foldl (fun acc rel =>
      acc ++ (if !(mapHas st.types rel.target) then
        [mkDiag fn rel.loc.line rel.loc.col ("undefined entity '" ++ rel.target ++ "'")
          (findSimilar rel.target (mapKeys st.types))]
      else [])) d1
    let members := getAllMembers typeInfo
    let bv1 := (mapKeys members).foldl (fun s n => vsAdd s n) ([] : List String)
    let r3 := entity.projections.foldl (fun acc proj =>
      let d :=
        if !(mapHas typeInfo.relationships proj.source) then
          [mkDiag fn proj.loc.line proj.loc.col
            ("undefined relationship '" ++ proj.source ++ "'")
            (findSimilar proj.source (mapKeys typeInfo.relationships))]
        else []
      let r := checkExprInContext fuel st fn acc.2 proj.filter true
      (acc.1 ++ d ++ r.1, r.2)) (d2, bv1)
    let r4 := entity.derived.foldl (fun acc der =>
      let r := checkExprInContext fuel st fn acc.2 der.expr true
      (acc.1 ++ r.1, r.2)) r3
    r4.1

/-- `checkReferences` of `checks/references.ts`.  The bound set is cleared
at entity exit and rule entry, so only the diagnostic stream threads
through the phases. -/
def checkReferences (fuel : Nat) (file : AlliumFile) (st : SymbolTable)
    (fn : String) : List Diagnostic :=
  let d1 := file.entities.foldl (fun acc entity =>
    acc ++ checkEntityMembers fuel st fn entity) ([] : List Diagnostic)
  let d2 := file.values.foldl (fun acc val =>
    val.fields.foldl (fun acc2 field =>
      acc2 ++ checkTypeRef st fn field.type field.loc) acc) d1
  let d3 := file.externals.foldl (fun acc ext =>
    ext.fields.foldl (fun acc2 field =>
      acc2 ++ checkTypeRef st fn field.type field.loc) acc) d2
  file.rules.foldl (fun acc rule => acc ++ (checkRule fuel st fn rule).1) d3

/-! ### Enum checker (`checks/enums.ts`) -/

/-- `EnumChecker.resolveEntityType`: only a bare identifier naming a
declared type resolves; anything else is skipped ("skip for MVP"). -/
def resolveEntityType (st : SymbolTable) : Expr → Option TypeInfo
  | .ident name _ => mapLookup st.types name
  | _ => none

/-- The variable heuristic of `checkEnumComparison`:
`valueName[0] === valueName[0].toLowerCase() && /^[a-z]/.test(valueName)`,
i.e. the first character is a lowercase letter (identifier lexemes are
never empty). -/
def startsLowercase (s : String) : Bool :=
  match s.data with
  | [] => false
  | c :: _ => 'a' ≤ c && c ≤ 'z'

/-- The enum diagnostic message (`join(' | ')` on the members). -/
def invalidEnumMsg (valueName fieldName : String) (enumValues : List String) :
    String :=
  "invalid enum value '" ++ valueName ++ "' for field '" ++ fieldName ++
    "' (expected: " ++ String.intercalate " | " enumValues ++ ")"

/-- `EnumChecker.checkEnumAssignment` (the state-change trigger path):
flags unconditionally, with whatever suggestion `findSimilar` returns. -/
def checkEnumAssignment (st : SymbolTable) (fn : String)
    (entityName fieldName : String) (value : Expr) (loc : Loc) :
    List Diagnostic :=
  match mapLookup st.types entityName with
  | none => []
  | some typeInfo =>
    match mapLookup typeInfo.fields fieldName with
    | none => []
    | some fieldInfo =>
      match fieldInfo.enumValues with
      | none => []
      | some enumValues =>
        match value with
        | .ident name vloc =>
          if !(enumValues.contains name) then
            [mkDiag fn vloc.line vloc.col (invalidEnumMsg name fieldName enumValues)
              (findSimilar name enumValues)]
          else []
        | _ => []

/-- `EnumChecker.checkEnumComparison` (one direction of the `=` / `!=`
pattern): resolve the object, look up the field's enum members, and flag a
non-member — unless the identifier starts with a lowercase letter, which
is presumed a variable and skipped. -/
def checkEnumComparison (st : SymbolTable) (fn : String)
    (fieldSide valueSide : Expr) : List Diagnostic :=
  match fieldSide, valueSide with
  | .fieldAccess entityExpr fieldName _, .ident valueName vloc =>
    (match resolveEntityType st entityExpr with
     | none => []
     | some entityType =>
       match mapLookup entityType.fields fieldName with
       | none => []
       | some fieldInfo =>
         match fieldInfo.enumValues with
         | none => []
         | some enumValues =>
           if !(enumValues.contains valueName) then
             if startsLowercase valueName then []
             else
               [mkDiag fn vloc.line vloc.col
                 (invalidEnumMsg valueName fieldName enumValues)
                 (findSimilar valueName enumValues)]
           else [])
  | _, _ => []

/-- The per-initialiser enum check of the `entity-created` case of
`checkExprForEnums` (the loop body before its recursive call): flags a
non-member identifier only when `findSimilar` produces a suggestion. -/
def checkCreatedFieldAssign (st : SymbolTable) (fn : String)
    (typeInfo : TypeInfo) (fieldAssign : String × Expr) : List Diagnostic :=
  match mapLookup typeInfo.fields fieldAssign.1 with
  | none => []
  | some fieldInfo =>
    match fieldInfo.enumValues, fieldAssign.2 with
    | some enumValues, .ident valueName vloc =>
      if !(enumValues.contains valueName) then
        match findSimilar valueName enumValues with
        | some suggestion =>
          [mkDiag fn vloc.line vloc.col
            (invalidEnumMsg valueName fieldAssign.1 enumValues) (some suggestion)]
        | none => []
      else []
    | _, _ => []

/-- `EnumChecker.checkExprForEnums` (fuelled for the nested lists).
The `contextEntity` parameter is threaded but, as in the source, never
consulted. -/
def checkExprForEnums : Nat → SymbolTable → String → Expr → Option String →
    List Diagnostic
  | 0, _, _, _, _ => []
  | fuel+1, st, fn, e, contextEntity =>
    match e with
    | .binary op left right _ =>
      (if op = .opEq || op = .opNe then
        checkEnumComparison st fn left right ++ checkEnumComparison st fn right left
      else []) ++
      checkExprForEnums fuel st fn left contextEntity ++
      checkExprForEnums fuel st fn right contextEntity
    | .unary _ operand _ => checkExprForEnums fuel st fn operand contextEntity
    | .call callee args _ =>
      checkExprForEnums fuel st fn callee contextEntity ++
      args.foldl (fun acc a => acc ++ checkExprForEnums fuel st fn a contextEntity) []
    | .lambda _ body _ => checkExprForEnums fuel st fn body contextEntity
    | .fieldAccess object _ _ => checkExprForEnums fuel st fn object contextEntity
    | .entityCreated entity fields _ =>
      (match mapLookup st.types entity with
       | some typeInfo =>
         fields.foldl (fun acc fieldAssign =>
           acc ++ checkCreatedFieldAssign st fn typeInfo fieldAssign ++
           checkExprForEnums fuel st fn fieldAssign.2 contextEntity) []
       | none => [])
    | .joinLookup _ keys _ =>
      keys.foldl (fun acc kv => acc ++ checkExprForEnums fuel st fn kv.2 contextEntity) []
    | _ => []

/-- `EnumChecker.checkRule`. -/
def enumCheckRule (fuel : Nat) (st : SymbolTable) (fn : String) (rule : Rule) :
    List Diagnostic :=
  (match rule.trigger with
   | .stateChange _ entity field value loc =>
     checkEnumAssignment st fn entity field value loc
   | _ => []) ++
  rule.requires.foldl (fun acc e => acc ++ checkExprForEnums fuel st fn e none) [] ++
  rule.ensures.foldl (fun acc e => acc ++ checkExprForEnums fuel st fn e none) []

/-- `checkEnums` of `checks/enums.ts`. -/
def checkEnums (fuel : Nat) (file : AlliumFile) (st : SymbolTable) (fn : String) :
    List Diagnostic :=
  file.rules.foldl (fun acc rule => acc ++ enumCheckRule fuel st fn rule)
    ([] : List Diagnostic) ++
  file.entities.foldl (fun acc entity =>
    entity.derived.foldl (fun acc2 der =>
      acc2 ++ checkExprForEnums fuel st fn der.expr (some entity.name)) acc)
    ([] : List Diagnostic)

/-- `check` of `cli.ts`: the full pipeline.  `none` only on model fuel
exhaustion, which has no JS counterpart. -/
def check (fuel : Nat) (filename : String) (source : List Char) :
    Option (List Diagnostic) :=
  let tokens := lex source
  match parse fuel tokens filename with
  | none => none
  | some (.error d) => some [d]
  | some (.ok file) =>
    let symbols := buildSymbols file
    some (checkReferences fuel file symbols filename ++
          checkEnums fuel file symbols filename)

/-- Modelled from the spec: "the expression syntactically contains the
identifier `now`" (§4.2 trigger rule) read as full-tree containment over
every expression former; the source's `exprContainsNow` (which recurses
only into binary operands and field-access objects) is compared against
this.  Fuelled for the nested lists. -/
def containsNowSpec : Nat → Expr → Bool
  | 0, _ => false
  | fuel+1, e =>
    match e with
    | .ident name _ => name = "now"
    | .fieldAccess object _ _ => containsNowSpec fuel object
    | .call callee args _ =>
      containsNowSpec fuel callee || args.any (fun a => containsNowSpec fuel a)
    | .binary _ l r _ => containsNowSpec fuel l || containsNowSpec fuel r
    | .unary _ o _ => containsNowSpec fuel o
    | .lambda _ body _ => containsNowSpec fuel body
    | .joinLookup _ keys _ => keys.any (fun kv => containsNowSpec fuel kv.2)
    | .entityCreated _ fields _ => fields.any (fun kv => containsNowSpec fuel kv.2)
    | _ => false

/-! ### Concrete fixtures and statement-support projections -/

/-- Scenario source: enum typo on the right of `=` under a rule-bound
variable (README / spec scenario 5 shape). -/
def srcC1 : List Char :=
  ("entity User \x7b status: active | suspended \x7d\n"
    ++ "rule R \x7b when: AdminSuspends(user) ensures: user.status = suspendd \x7d").data

/-- Scenario source: optional entity-reference field in an entity body. -/
def srcC2 : List Char := "entity Post \x7b author: Usr? \x7d".data

/-- Scenario source: `entity Post \x7b author: Usr \x7d` on line 8 with
`author` at column 15 and `Usr` at column 23; `User` declared on line 1. -/
def srcC3 : List Char :=
  ("entity User \x7b name: String \x7d\n\n\n\n\n\n\n"
    ++ "entity Post \x7b author: Usr \x7d").data

/-- Scenario source: a lone `?` does not parse. -/
def srcC4 : List Char := "?".data

/-- Scenario source: a trigger expression whose top-level operator is `>`
and which contains `now` only inside a call argument. -/
def srcC8 : List Char := "rule R \x7b when: x.f(now) > y \x7d".data

/-- A concrete symbol table: `entity User \x7b status: active | suspended \x7d`. -/
def stUser : SymbolTable :=
  ⟨[("User", ⟨.entity, "User",
      [("status", ⟨"status", .enum ["active", "suspended"],
        some ["active", "suspended"]⟩)],
      [], [], []⟩)], [], []⟩

/-- Field types of every entity of a parse result (statement support). -/
def parsedEntityFieldTypes (r : Option ParseResult) : List (List TypeExpr) :=
  match r with
  | some (.ok file) => file.entities.map (fun e => e.fields.map (fun fd => fd.type))
  | _ => []

/-- For each rule of a parse result, whether its trigger is temporal,
whether the trigger expression's top-level operator is a comparison, and
whether the expression contains `now` in the spec's full-tree sense
(statement support). -/
def parsedTriggerClasses (r : Option ParseResult) : List (Bool × Bool × Bool) :=
  match r with
  | some (.ok file) => file.rules.map (fun rule =>
      match rule.trigger with
      | .temporal e _ => (true, topCmpOp e, containsNowSpec 100 e)
      | .derived e _ => (false, topCmpOp e, containsNowSpec 100 e)
      | _ => (false, false, false))
  | _ => []

/-! ### Helper lemmas -/

theorem findSimilar_aux (name : String) :
    ∀ (l : List String) (acc : Option String × Nat),
      acc.2 ≤ 3 → (acc.1.isSome = true ↔ acc.2 < 3) →
      ((l.foldl (fun acc candidate =>
          if levenshtein (lowerStr name) (lowerStr candidate) < acc.2 then
            (some candidate, levenshtein (lowerStr name) (lowerStr candidate))
          else acc) acc).1.isSome = true
        ↔ (acc.1.isSome = true ∨ ∃ c ∈ l, levenshtein (lowerStr name) (lowerStr c) < 3)) := by
  intro l
  induction l with
  | nil =>
    intro acc h1 h2
    simp
  | cons c rest ih =>
    intro acc h1 h2
    simp only [List.foldl_cons]
    by_cases hd : levenshtein (lowerStr name) (lowerStr c) < acc.2
    · rw [if_pos hd]
      rw [ih (some c, levenshtein (lowerStr name) (lowerStr c))
        (le_of_lt (lt_of_lt_of_le hd h1))
        ⟨fun _ => lt_of_lt_of_le hd h1, fun _ => rfl⟩]
      constructor
      · intro _
        exact Or.inr ⟨c, List.mem_cons_self c rest, lt_of_lt_of_le hd h1⟩
      · intro _
        exact Or.inl rfl
    · rw [if_neg hd]
      rw [ih acc h1 h2]
      constructor
      · rintro (hA | ⟨x, hx, hlev⟩)
        · exact Or.inl hA
        · exact Or.inr ⟨x, List.mem_cons_of_mem c hx, hlev⟩
      · rintro (hA | ⟨x, hx, hlev⟩)
        · exact Or.inl hA
        · rcases List.mem_cons.mp hx with rfl | hx2
          · exact Or.inl (h2.mpr (lt_of_le_of_lt (Nat.le_of_not_lt hd) hlev))
          · exact Or.inr ⟨x, hx2, hlev⟩

/-- `findSimilar` returns a candidate exactly when some candidate is within
case-insensitive edit distance 2. -/
theorem findSimilar_isSome_iff (name : String) (candidates : List String) :
    (findSimilar name candidates).isSome = true
      ↔ ∃ c ∈ candidates, levenshtein (lowerStr name) (lowerStr c) ≤ 2 := by
  unfold findSimilar
  rw [show (fun (acc : Option String × Nat) (candidate : String) =>
      let dist := levenshtein (lowerStr name) (lowerStr candidate)
      if dist < acc.2 then (some candidate, dist) else acc) =
      (fun (acc : Option String × Nat) (candidate : String) =>
        if levenshtein (lowerStr name) (lowerStr candidate) < acc.2 then
          (some candidate, levenshtein (lowerStr name) (lowerStr candidate))
        else acc) from rfl]
  rw [findSimilar_aux name candidates ((none : Option String), 3) (by omega) (by simp)]
  simp [Nat.lt_succ_iff]

/-- The list-threading folds of the reference checker preserve the
bound-variable component whenever the per-element check does. -/
theorem checkFold_snd (fuel : Nat) (st : SymbolTable) (fn : String)
    (hrec : ∀ e bv skip, (checkExprInContext fuel st fn bv e skip).2 = bv) :
    (∀ (args : List Expr) (flag : Bool) (acc : List Diagnostic × List String),
      (args.foldl (fun acc a =>
        (acc.1 ++ (checkExprInContext fuel st fn acc.2 a flag).1,
         (checkExprInContext fuel st fn acc.2 a flag).2)) acc).2 = acc.2)
    ∧ (∀ (kvs : List (String × Expr)) (flag : Bool) (acc : List Diagnostic × List String),
      (kvs.foldl (fun acc kv =>
        (acc.1 ++ (checkExprInContext fuel st fn acc.2 kv.2 flag).1,
         (checkExprInContext fuel st fn acc.2 kv.2 flag).2)) acc).2 = acc.2) := by
  constructor
  · intro args
    induction args with
    | nil => intro flag acc; rfl
    | cons a rest iha =>
      intro flag acc
      simp only [List.foldl_cons]
      rw [iha]
      simp [hrec]
  · intro kvs
    induction kvs with
    | nil => intro flag acc; rfl
    | cons kv rest iha =>
      intro flag acc
      simp only [List.foldl_cons]
      rw [iha]
      simp [hrec]

/-- `checkExprInContext` returns the bound-variable set unchanged: every
scope mutation (only the lambda case mutates) is undone on exit. -/
theorem checkExprInContext_bv (fuel : Nat) (st : SymbolTable) (fn : String) :
    ∀ (e : Expr) (bv : List String) (skip : Bool),
      (checkExprInContext fuel st fn bv e skip).2 = bv := by
  induction fuel with
  | zero => intro e bv skip; rfl
  | succ fuel ih =>
    obtain ⟨hfE, hfP⟩ := checkFold_snd fuel st fn ih
    intro e bv skip
    cases e with
    | ident name loc =>
      simp only [checkExprInContext]
      split
      · split <;> rfl
      · rfl
    | fieldAccess object field loc =>
      simp only [checkExprInContext]
      exact ih object bv skip
    | call callee args loc =>
      simp only [checkExprInContext]
      rw [hfE]
      exact ih callee bv skip
    | binary op left right loc =>
      simp only [checkExprInContext]
      split <;> simp [ih]
    | unary op operand loc =>
      simp only [checkExprInContext]
      exact ih operand bv skip
    | lambda param body loc =>
      simp only [checkExprInContext]
      rw [ih body]
      by_cases h : vsHas bv param
      · simp only [h, Bool.not_true, if_neg]
        simp [vsAdd, vsHas] at h ⊢
        simp [h]
      · simp only [h, Bool.not_false, if_pos]
        simp only [vsAdd, vsHas] at h ⊢
        rw [if_neg (by simpa using h)]
        unfold vsDelete
        rw [List.erase_append_right _ (by simpa using h)]
        simp
    | joinLookup entity keys loc =>
      simp only [checkExprInContext]
      rw [hfP]
    | entityCreated entity fields loc =>
      simp only [checkExprInContext]
      rw [hfP]
    | number v loc => rfl
    | str v loc => rfl
    | bool v loc => rfl
    | null loc => rfl
    | enumValue v loc => rfl

theorem advancePLC_fst (src : List Char) (p l c : Nat) :
    (advancePLC src p l c).1 = p + 1 := by
  unfold advancePLC
  split <;> rfl

theorem skipCommentLine_fst_lt (src : List Char) (p l c : Nat)
    (hp : p < src.length) (hch : ¬ src.get ⟨p, hp⟩ = '\n') :
    p < (skipCommentLine src p l c).1 := by
  unfold skipCommentLine
  have hdrop : src.drop p = src.get ⟨p, hp⟩ :: src.drop (p + 1) :=
    List.drop_eq_getElem_cons hp
  simp only [hdrop, List.takeWhile_cons]
  rw [if_pos (by simpa using hch)]
  simp

theorem skipWsF_isSome (src : List Char) :
    ∀ (fuel p l c : Nat), src.length - p < fuel →
      (skipWsF fuel src p l c).isSome = true := by
  intro fuel
  induction fuel with
  | zero => intro p l c h; omega
  | succ fuel ih =>
    intro p l c h
    simp only [skipWsF]
    split
    case isTrue hp =>
      split
      · rw [advancePLC_fst]
        exact ih (p + 1) _ _ (by omega)
      · split
        case isTrue hcm =>
          have hne : ¬ src.get ⟨p, hp⟩ = '\n' := by
            intro hcontra
            rw [hcontra] at hcm
            simp at hcm
          have := skipCommentLine_fst_lt src p l c hp hne
          exact ih _ _ _ (by omega)
        case isFalse => simp
    case isFalse => simp

theorem skipWsF_fst_le (src : List Char) :
    ∀ (fuel p l c p2 l2 c2 : Nat),
      skipWsF fuel src p l c = some (p2, l2, c2) → p ≤ p2 := by
  intro fuel
  induction fuel with
  | zero => intro p l c p2 l2 c2 h; exact absurd h (by simp [skipWsF])
  | succ fuel ih =>
    intro p l c p2 l2 c2 h
    simp only [skipWsF] at h
    split at h
    case isTrue hp =>
      split at h
      · rw [advancePLC_fst] at h
        exact le_trans (by omega) (ih _ _ _ _ _ _ h)
      · split at h
        case isTrue hcm =>
          have : p ≤ (skipCommentLine src p l c).1 := by
            unfold skipCommentLine; simp
          exact le_trans this (ih _ _ _ _ _ _ h)
        case isFalse =>
          cases h
          exact le_refl p
    case isFalse =>
      cases h
      exact le_refl p

theorem readStrF_isSome (src : List Char) (q : Char) :
    ∀ (fuel p l c : Nat) (acc : List Char), src.length - p < fuel →
      (readStrF fuel src q p l c acc).isSome = true := by
  intro fuel
  induction fuel with
  | zero => intro p l c acc h; omega
  | succ fuel ih =>
    intro p l c acc h
    simp only [readStrF]
    split
    case isTrue hp =>
      split
      · simp
      · split
        · split
          · rw [advancePLC_fst, advancePLC_fst]
            exact ih _ _ _ _ (by omega)
          · rw [advancePLC_fst, advancePLC_fst]
            exact ih _ _ _ _ (by omega)
        · rw [advancePLC_fst]
          exact ih _ _ _ _ (by omega)
    case isFalse => simp

theorem readStrF_fst_le (src : List Char) (q : Char) :
    ∀ (fuel p l c : Nat) (acc s : List Char) (p2 l2 c2 : Nat),
      readStrF fuel src q p l c acc = some (s, p2, l2, c2) → p ≤ p2 := by
  intro fuel
  induction fuel with
  | zero => intro p l c acc s p2 l2 c2 h; exact absurd h (by simp [readStrF])
  | succ fuel ih =>
    intro p l c acc s p2 l2 c2 h
    simp only [readStrF] at h
    split at h
    case isTrue hp =>
      split at h
      · cases h
        exact le_refl p
      · split at h
        · split at h
          · rw [advancePLC_fst, advancePLC_fst] at h
            exact le_trans (by omega) (ih _ _ _ _ _ _ _ _ h)
          · rw [advancePLC_fst, advancePLC_fst] at h
            exact le_trans (by omega) (ih _ _ _ _ _ _ _ _ h)
        · rw [advancePLC_fst] at h
          exact le_trans (by omega) (ih _ _ _ _ _ _ _ _ h)
    case isFalse =>
      cases h
      exact le_refl p

theorem consTok_isSome (t : Token) (r : Option (List Token × Nat × Nat)) :
    (consTok t r).isSome = r.isSome := by
  cases r <;> rfl

theorem lexLoopF_isSome (src : List Char) :
    ∀ (fuel p l c : Nat), src.length - p < fuel →
      (lexLoopF fuel src p l c).isSome = true := by
  intro fuel
  induction fuel with
  | zero => intro p l c h; omega
  | succ fuel ih =>
    intro p l c h
    simp only [lexLoopF]
    delta lexStep
    by_cases hp : p < src.length
    case neg => rw [dif_neg hp]; simp
    case pos =>
      rw [dif_pos hp]
      obtain ⟨⟨p1, l1, c1⟩, hswe⟩ := Option.isSome_iff_exists.mp
        (skipWsF_isSome src (src.length + 1) p l c (by omega))
      have hple : p ≤ p1 := skipWsF_fst_le src _ p l c p1 l1 c1 hswe
      rw [hswe]
      simp only [Option.some_bind]
      by_cases hp1 : p1 < src.length
      case neg => rw [dif_neg hp1]; simp
      case pos =>
        rw [dif_pos hp1]
        by_cases hb1 : singleTokChars.contains (src.get ⟨p1, hp1⟩) = true
        · rw [if_pos hb1, consTok_isSome, advancePLC_fst]
          exact ih _ _ _ (by omega)
        · rw [if_neg hb1]
          by_cases hb2 : src.get ⟨p1, hp1⟩ = '=' ∧ src.get? (p1+1) = some '>'
          · rw [if_pos hb2, consTok_isSome]
            exact ih _ _ _ (by omega)
          · rw [if_neg hb2]
            by_cases hb3 : src.get ⟨p1, hp1⟩ = '!' ∧ src.get? (p1+1) = some '='
            · rw [if_pos hb3, consTok_isSome]
              exact ih _ _ _ (by omega)
            · rw [if_neg hb3]
              by_cases hb4 : src.get ⟨p1, hp1⟩ = '<' ∧ src.get? (p1+1) = some '='
              · rw [if_pos hb4, consTok_isSome]
                exact ih _ _ _ (by omega)
              · rw [if_neg hb4]
                by_cases hb5 : src.get ⟨p1, hp1⟩ = '>' ∧ src.get? (p1+1) = some '='
                · rw [if_pos hb5, consTok_isSome]
                  exact ih _ _ _ (by omega)
                · rw [if_neg hb5]
                  by_cases hb6 : src.get ⟨p1, hp1⟩ = '<'
                  · rw [if_pos hb6, consTok_isSome]
                    exact ih _ _ _ (by omega)
                  · rw [if_neg hb6]
                    by_cases hb7 : src.get ⟨p1, hp1⟩ = '>'
                    · rw [if_pos hb7, consTok_isSome]
                      exact ih _ _ _ (by omega)
                    · rw [if_neg hb7]
                      by_cases hb8 : src.get ⟨p1, hp1⟩ = '='
                      · rw [if_pos hb8, consTok_isSome]
                        exact ih _ _ _ (by omega)
                      · rw [if_neg hb8]
                        by_cases hb9 : isIdentStart (src.get ⟨p1, hp1⟩) = true
                        · rw [if_pos hb9, consTok_isSome]
                          exact ih _ _ _ (by omega)
                        · rw [if_neg hb9]
                          by_cases hb10 : '0' ≤ src.get ⟨p1, hp1⟩ ∧ src.get ⟨p1, hp1⟩ ≤ '9'
                          · rw [if_pos hb10, consTok_isSome]
                            exact ih _ _ _ (by omega)
                          · rw [if_neg hb10]
                            by_cases hb11 : src.get ⟨p1, hp1⟩ = '"' ∨ src.get ⟨p1, hp1⟩ = '\''
                            · rw [if_pos hb11]
                              obtain ⟨⟨content, p2, l2, c2⟩, hrse⟩ :=
                                Option.isSome_iff_exists.mp
                                  (readStrF_isSome src (src.get ⟨p1, hp1⟩)
                                    (src.length + 1) (advancePLC src p1 l1 c1).1
                                    (advancePLC src p1 l1 c1).2.1
                                    (advancePLC src p1 l1 c1).2.2 []
                                    (by rw [advancePLC_fst]; omega))
                              have hp2 := readStrF_fst_le src (src.get ⟨p1, hp1⟩)
                                (src.length + 1) (advancePLC src p1 l1 c1).1
                                (advancePLC src p1 l1 c1).2.1
                                (advancePLC src p1 l1 c1).2.2 []
                                content p2 l2 c2 hrse
                              rw [advancePLC_fst] at hp2
                              rw [hrse]
                              simp only [Option.some_bind]
                              rw [consTok_isSome, advancePLC_fst]
                              exact ih _ _ _ (by omega)
                            · rw [if_neg hb11, advancePLC_fst]
                              exact ih _ _ _ (by omega)

theorem charTokenType_ne_eof (c : Char) : ¬ charTokenType c = .tEof := by
  unfold charTokenType
  by_cases h0 : c = '\x7b'
  · rw [if_pos h0]; decide
  · rw [if_neg h0]
    by_cases h1 : c = '\x7d'
    · rw [if_pos h1]; decide
    · rw [if_neg h1]
      by_cases h2 : c = '('
      · rw [if_pos h2]; decide
      · rw [if_neg h2]
        by_cases h3 : c = ')'
        · rw [if_pos h3]; decide
        · rw [if_neg h3]
          by_cases h4 : c = '['
          · rw [if_pos h4]; decide
          · rw [if_neg h4]
            by_cases h5 : c = ']'
            · rw [if_pos h5]; decide
            · rw [if_neg h5]
              by_cases h6 : c = ':'
              · rw [if_pos h6]; decide
              · rw [if_neg h6]
                by_cases h7 : c = ','
                · rw [if_pos h7]; decide
                · rw [if_neg h7]
                  by_cases h8 : c = '|'
                  · rw [if_pos h8]; decide
                  · rw [if_neg h8]
                    by_cases h9 : c = '?'
                    · rw [if_pos h9]; decide
                    · rw [if_neg h9]
                      by_cases h10 : c = '.'
                      · rw [if_pos h10]; decide
                      · rw [if_neg h10]
                        by_cases h11 : c = '+'
                        · rw [if_pos h11]; decide
                        · rw [if_neg h11]
                          by_cases h12 : c = '-'
                          · rw [if_pos h12]; decide
                          · rw [if_neg h12]
                            by_cases h13 : c = '*'
                            · rw [if_pos h13]; decide
                            · rw [if_neg h13]
                              by_cases h14 : c = '/'
                              · rw [if_pos h14]; decide
                              · rw [if_neg h14]; decide

theorem identTokenType_ne_eof (s : String) : ¬ identTokenType s = .tEof := by
  unfold identTokenType
  by_cases h0 : s = "entity"
  · rw [if_pos h0]; decide
  · rw [if_neg h0]
    by_cases h1 : s = "external"
    · rw [if_pos h1]; decide
    · rw [if_neg h1]
      by_cases h2 : s = "value"
      · rw [if_pos h2]; decide
      · rw [if_neg h2]
        by_cases h3 : s = "rule"
        · rw [if_pos h3]; decide
        · rw [if_neg h3]
          by_cases h4 : s = "when"
          · rw [if_pos h4]; decide
          · rw [if_neg h4]
            by_cases h5 : s = "let"
            · rw [if_pos h5]; decide
            · rw [if_neg h5]
              by_cases h6 : s = "requires"
              · rw [if_pos h6]; decide
              · rw [if_neg h6]
                by_cases h7 : s = "ensures"
                · rw [if_pos h7]; decide
                · rw [if_neg h7]
                  by_cases h8 : s = "default"
                  · rw [if_pos h8]; decide
                  · rw [if_neg h8]
                    by_cases h9 : s = "deferred"
                    · rw [if_pos h9]; decide
                    · rw [if_neg h9]
                      by_cases h10 : s = "open"
                      · rw [if_pos h10]; decide
                      · rw [if_neg h10]
                        by_cases h11 : s = "question"
                        · rw [if_pos h11]; decide
                        · rw [if_neg h11]
                          by_cases h12 : s = "for"
                          · rw [if_pos h12]; decide
                          · rw [if_neg h12]
                            by_cases h13 : s = "this"
                            · rw [if_pos h13]; decide
                            · rw [if_neg h13]
                              by_cases h14 : s = "with"
                              · rw [if_pos h14]; decide
                              · rw [if_neg h14]
                                by_cases h15 : s = "becomes"
                                · rw [if_pos h15]; decide
                                · rw [if_neg h15]
                                  by_cases h16 : s = "created"
                                  · rw [if_pos h16]; decide
                                  · rw [if_neg h16]
                                    by_cases h17 : s = "config"
                                    · rw [if_pos h17]; decide
                                    · rw [if_neg h17]
                                      by_cases h18 : s = "now"
                                      · rw [if_pos h18]; decide
                                      · rw [if_neg h18]
                                        by_cases h19 : s = "and"
                                        · rw [if_pos h19]; decide
                                        · rw [if_neg h19]
                                          by_cases h20 : s = "or"
                                          · rw [if_pos h20]; decide
                                          · rw [if_neg h20]
                                            by_cases h21 : s = "not"
                                            · rw [if_pos h21]; decide
                                            · rw [if_neg h21]
                                              by_cases h22 : s = "in"
                                              · rw [if_pos h22]; decide
                                              · rw [if_neg h22]
                                                by_cases h23 : s = "true"
                                                · rw [if_pos h23]; decide
                                                · rw [if_neg h23]
                                                  by_cases h24 : s = "false"
                                                  · rw [if_pos h24]; decide
                                                  · rw [if_neg h24]
                                                    by_cases h25 : s = "null"
                                                    · rw [if_pos h25]; decide
                                                    · rw [if_neg h25]; decide

theorem consTok_noEof (t : Token) (r : Option (List Token × Nat × Nat))
    (toks : List Token) (l2 c2 : Nat)
    (h : consTok t r = some (toks, l2, c2)) (ht : ¬ t.type = .tEof)
    (hr : ∀ ts l3 c3, r = some (ts, l3, c3) → ∀ u ∈ ts, ¬ u.type = .tEof) :
    ∀ u ∈ toks, ¬ u.type = .tEof := by
  cases r with
  | none => simp [consTok] at h
  | some v =>
    obtain ⟨ts, l3, c3⟩ := v
    simp only [consTok] at h
    cases h
    intro u hu
    rcases List.mem_cons.mp hu with rfl | hu2
    · exact ht
    · exact hr ts _ _ rfl u hu2

theorem lexLoopF_noEof (src : List Char) :
    ∀ (fuel p l c : Nat) (toks : List Token) (l2 c2 : Nat),
      lexLoopF fuel src p l c = some (toks, l2, c2) →
      ∀ t ∈ toks, ¬ t.type = .tEof := by
  intro fuel
  induction fuel with
  | zero =>
    intro p l c toks l2 c2 h
    exact absurd h (by simp [lexLoopF])
  | succ fuel ih =>
    intro p l c toks l2 c2 h
    simp only [lexLoopF] at h
    delta lexStep at h
    by_cases hp : p < src.length
    case neg =>
      rw [dif_neg hp] at h
      simp only [Option.some.injEq, Prod.mk.injEq] at h
      obtain ⟨rfl, rfl, rfl⟩ := h
      intro t ht
      simp at ht
    case pos =>
      rw [dif_pos hp] at h
      cases hswe : skipWsF (src.length + 1) src p l c with
      | none => rw [hswe] at h; simp at h
      | some plc1 =>
        obtain ⟨p1, l1, c1⟩ := plc1
        rw [hswe] at h
        simp only [Option.some_bind] at h
        by_cases hp1 : p1 < src.length
        case neg =>
          rw [dif_neg hp1] at h
          simp only [Option.some.injEq, Prod.mk.injEq] at h
          obtain ⟨rfl, rfl, rfl⟩ := h
          intro t ht
          simp at ht
        case pos =>
          rw [dif_pos hp1] at h
          by_cases hb1 : singleTokChars.contains (src.get ⟨p1, hp1⟩) = true
          · rw [if_pos hb1] at h
            exact consTok_noEof _ _ _ _ _ h (charTokenType_ne_eof _)
              (fun ts l3 c3 hrec => ih _ _ _ ts l3 c3 hrec)
          · rw [if_neg hb1] at h
            by_cases hb2 : src.get ⟨p1, hp1⟩ = '=' ∧ src.get? (p1+1) = some '>'
            · rw [if_pos hb2] at h
              exact consTok_noEof _ _ _ _ _ h (fun hc => nomatch hc)
                (fun ts l3 c3 hrec => ih _ _ _ ts l3 c3 hrec)
            · rw [if_neg hb2] at h
              by_cases hb3 : src.get ⟨p1, hp1⟩ = '!' ∧ src.get? (p1+1) = some '='
              · rw [if_pos hb3] at h
                exact consTok_noEof _ _ _ _ _ h (fun hc => nomatch hc)
                  (fun ts l3 c3 hrec => ih _ _ _ ts l3 c3 hrec)
              · rw [if_neg hb3] at h
                by_cases hb4 : src.get ⟨p1, hp1⟩ = '<' ∧ src.get? (p1+1) = some '='
                · rw [if_pos hb4] at h
                  exact consTok_noEof _ _ _ _ _ h (fun hc => nomatch hc)
                    (fun ts l3 c3 hrec => ih _ _ _ ts l3 c3 hrec)
                · rw [if_neg hb4] at h
                  by_cases hb5 : src.get ⟨p1, hp1⟩ = '>' ∧ src.get? (p1+1) = some '='
                  · rw [if_pos hb5] at h
                    exact consTok_noEof _ _ _ _ _ h (fun hc => nomatch hc)
                      (fun ts l3 c3 hrec => ih _ _ _ ts l3 c3 hrec)
                  · rw [if_neg hb5] at h
                    by_cases hb6 : src.get ⟨p1, hp1⟩ = '<'
                    · rw [if_pos hb6] at h
                      exact consTok_noEof _ _ _ _ _ h (fun hc => nomatch hc)
                        (fun ts l3 c3 hrec => ih _ _ _ ts l3 c3 hrec)
                    · rw [if_neg hb6] at h
                      by_cases hb7 : src.get ⟨p1, hp1⟩ = '>'
                      · rw [if_pos hb7] at h
                        exact consTok_noEof _ _ _ _ _ h (fun hc => nomatch hc)
                          (fun ts l3 c3 hrec => ih _ _ _ ts l3 c3 hrec)
                      · rw [if_neg hb7] at h
                        by_cases hb8 : src.get ⟨p1, hp1⟩ = '='
                        · rw [if_pos hb8] at h
                          exact consTok_noEof _ _ _ _ _ h (fun hc => nomatch hc)
                            (fun ts l3 c3 hrec => ih _ _ _ ts l3 c3 hrec)
                        · rw [if_neg hb8] at h
                          by_cases hb9 : isIdentStart (src.get ⟨p1, hp1⟩) = true
                          · rw [if_pos hb9] at h
                            exact consTok_noEof _ _ _ _ _ h
                              (identTokenType_ne_eof _)
                              (fun ts l3 c3 hrec => ih _ _ _ ts l3 c3 hrec)
                          · rw [if_neg hb9] at h
                            by_cases hb10 : '0' ≤ src.get ⟨p1, hp1⟩ ∧ src.get ⟨p1, hp1⟩ ≤ '9'
                            · rw [if_pos hb10] at h
                              exact consTok_noEof _ _ _ _ _ h (fun hc => nomatch hc)
                                (fun ts l3 c3 hrec => ih _ _ _ ts l3 c3 hrec)
                            · rw [if_neg hb10] at h
                              by_cases hb11 : src.get ⟨p1, hp1⟩ = '"' ∨ src.get ⟨p1, hp1⟩ = '\''
                              · rw [if_pos hb11] at h
                                cases hrse : readStrF (src.length + 1) src
                                    (src.get ⟨p1, hp1⟩) (advancePLC src p1 l1 c1).1
                                    (advancePLC src p1 l1 c1).2.1
                                    (advancePLC src p1 l1 c1).2.2 [] with
                                | none => rw [hrse] at h; simp at h
                                | some r =>
                                  obtain ⟨content, p2, l2', c2'⟩ := r
                                  rw [hrse] at h
                                  simp only [Option.some_bind] at h
                                  exact consTok_noEof _ _ _ _ _ h (fun hc => nomatch hc)
                                    (fun ts l3 c3 hrec => ih _ _ _ ts l3 c3 hrec)
                              · rw [if_neg hb11] at h
                                exact ih _ _ _ toks l2 c2 h

theorem getLast?_append_singleton {α : Type} (l : List α) (a : α) :
    (l ++ [a]).getLast? = some a := by
  induction l with
  | nil => rfl
  | cons x xs ihx =>
    rw [List.cons_append]
    cases hxs : xs ++ [a] with
    | nil => exact absurd hxs (by simp)
    | cons y ys =>
      rw [List.getLast?_cons_cons]
      rw [← hxs, ihx]

/-! ### Claim theorems -/

/-- C7 (confirmed): for every input, the lexer's fuelled loop with the
standard fuel succeeds (the lexer terminates and cannot fail on any
input), and the token list `lex` returns ends in an `eof` token, with
`eof` occurring exactly once. -/
theorem lexer_totality_single_eof (src : List Char) :
    (lexLoopF (src.length + 1) src 0 1 1).isSome = true
    ∧ ((lex src).getLast?).map Token.type = some .tEof
    ∧ ((lex src).filter (fun t => t.type == .tEof)).length = 1 := by
  have hs := lexLoopF_isSome src (src.length + 1) 0 1 1 (by omega)
  obtain ⟨⟨toks, l, c⟩, he⟩ := Option.isSome_iff_exists.mp hs
  have hno := lexLoopF_noEof src (src.length + 1) 0 1 1 toks l c he
  refine ⟨hs, ?_, ?_⟩
  · unfold lex
    rw [he, getLast?_append_singleton]
    rfl
  · unfold lex
    rw [he, List.filter_append]
    have hfe : toks.filter (fun t => t.type == .tEof) = [] := by
      rw [List.filter_eq_nil_iff]
      intro t ht
      simpa using hno t ht
    rw [hfe]
    rfl

/-- C4 (confirmed): on every input whose parse fails with a diagnostic,
`check` returns exactly that one diagnostic — the symbol-table builder,
reference checker and enum checker contribute nothing. -/
theorem check_parse_error_single (fuel : Nat) (fn : String) (source : List Char)
    (d : Diagnostic) (h : parse fuel (lex source) fn = some (.error d)) :
    check fuel fn source = some [d] := by
  simp only [check, h]

theorem check_parse_error_single_witness :
    check 300 "foo.allium" srcC4 =
      some [⟨"foo.allium", 1, 1, "unexpected token '?'", none⟩] :=
  check_parse_error_single 300 "foo.allium" srcC4 _ (by rfl)

/-- C1 counterexample: with `entity User \x7b status: active | suspended \x7d`
declared and a rule binding `user` whose ensures clause is
`user.status = suspendd`, the complete check emits no diagnostic at all —
not the claimed single invalid-enum diagnostic with suggestion
`suspended`.  The comparison case cannot resolve the lowercase binding
`user` to a declared type, and the lowercase value `suspendd` is presumed
a variable. -/
theorem c1_counterexample : check 300 "foo.allium" srcC1 = some [] := by rfl

/-- C1 (corrected): the enum checker's direct-comparison case emits the
invalid-enum diagnostic, with `findSimilar`'s closest member as
suggestion, only when the field access's object is a bare identifier
naming a declared type and the compared identifier does not begin with a
lowercase letter; an identifier starting with a lowercase letter is
skipped as a presumed variable, so the spec's `user.status = suspendd`
scenario yields no diagnostic. -/
theorem checkEnumComparison_lowercase_skip
    (st : SymbolTable) (fn : String) (X f v : String) (xloc floc vloc : Loc)
    (ti : TypeInfo) (fi : FieldInfo) (vs : List String)
    (hty : mapLookup st.types X = some ti)
    (hf : mapLookup ti.fields f = some fi)
    (he : fi.enumValues = some vs)
    (hmem : ¬ v ∈ vs) :
    checkEnumComparison st fn (.fieldAccess (.ident X xloc) f floc) (.ident v vloc) =
      (if startsLowercase v then []
       else [mkDiag fn vloc.line vloc.col (invalidEnumMsg v f vs) (findSimilar v vs)]) := by
  have hc : vs.contains v = false := by
    simpa using hmem
  simp only [checkEnumComparison, resolveEntityType, hty, hf, he, hc]
  rfl

theorem checkEnumComparison_lowercase_skip_witness :
    checkEnumComparison stUser "foo.allium"
        (.fieldAccess (.ident "User" ⟨2, 26⟩) "status" ⟨2, 30⟩)
        (.ident "Suspendd" ⟨2, 47⟩) =
      [mkDiag "foo.allium" 2 47
        (invalidEnumMsg "Suspendd" "status" ["active", "suspended"])
        (some "suspended")] :=
  checkEnumComparison_lowercase_skip stUser "foo.allium" "User" "status" "Suspendd"
    ⟨2, 26⟩ ⟨2, 30⟩ ⟨2, 47⟩ _ _ _ (by rfl) (by rfl) (by rfl) (by decide)

/-- C2 (code_bug): in an entity body, `author: Usr?` is parsed as
`optional (primitive "Usr")` — not as `optional (entity-ref "Usr")` — so
the reference checker treats it as always valid and the complete check
emits no diagnostic even though `Usr` is undeclared. -/
theorem c2_optional_field_unflagged :
    parsedEntityFieldTypes (parse 300 (lex srcC2) "foo.allium") =
      [[.optional (.primitive "Usr")]]
    ∧ check 300 "foo.allium" srcC2 = some [] := by
  constructor <;> rfl

/-- C3 counterexample: for `entity Post \x7b author: Usr \x7d` on line 8 with
`Usr` at column 23 (and `User` declared), the complete check's only
diagnostic sits at 8:15 — the column of the field name `author` — not at
the claimed 8:23 of the type identifier. -/
theorem c3_counterexample :
    (check 300 "foo.allium" srcC3).map (fun ds => ds.map (fun d => (d.line, d.col))) =
      some [(8, 15)] := by rfl

/-- C3 (corrected): a type-reference diagnostic carries exactly the
location `checkTypeRef` was handed, which for a field is the field name's
location, not the type identifier's; concretely the scenario reports
`undefined type 'Usr'` (with suggestion `User`) at 8:15, where `author`
starts. -/
theorem checkTypeRef_diag_at_field_loc :
    (∀ (st : SymbolTable) (fn : String) (t : TypeExpr) (loc : Loc) (d : Diagnostic),
      d ∈ checkTypeRef st fn t loc → d.line = loc.line ∧ d.col = loc.col)
    ∧ check 300 "foo.allium" srcC3 =
        some [⟨"foo.allium", 8, 15, "undefined type 'Usr'", some "User"⟩] := by
  constructor
  · intro st fn t loc d hd
    induction t with
    | primitive name => simp [checkTypeRef] at hd
    | entityRef name =>
      simp only [checkTypeRef] at hd
      split at hd
      · rcases List.mem_singleton.mp hd with rfl
        exact ⟨rfl, rfl⟩
      · simp at hd
    | enum values => simp [checkTypeRef] at hd
    | optional inner iht => exact iht (by simpa only [checkTypeRef] using hd)
    | set inner iht => exact iht (by simpa only [checkTypeRef] using hd)
    | list inner iht => exact iht (by simpa only [checkTypeRef] using hd)
  · rfl

theorem checkTypeRef_diag_at_field_loc_witness :
    (⟨"g.allium", 3, 4, "undefined type 'Zz'", none⟩ : Diagnostic).line = 3
    ∧ (⟨"g.allium", 3, 4, "undefined type 'Zz'", none⟩ : Diagnostic).col = 4 :=
  checkTypeRef_diag_at_field_loc.1 ⟨[], [], []⟩ "g.allium" (.entityRef "Zz") ⟨3, 4⟩
    ⟨"g.allium", 3, 4, "undefined type 'Zz'", none⟩ (by decide)

/-- C5 (confirmed): the reference checker checks the right operand of every
`=`, `!=`, or `in` binary expression with the enum-context flag enabled,
and under that flag a bare identifier matching `^[a-z][a-z_]*$` is never
reported as undefined, whether or not it is bound, a type, or a builtin. -/
theorem binary_rhs_enum_context
    (fuel : Nat) (st : SymbolTable) (fn : String) (bv : List String)
    (op : BinaryOp) (left right : Expr) (loc : Loc) (skip : Bool)
    (hop : op = .opEq ∨ op = .opNe ∨ op = .opIn) :
    (checkExprInContext (fuel+1) st fn bv (.binary op left right loc) skip =
      ((checkExprInContext fuel st fn bv left skip).1 ++
        (checkExprInContext fuel st fn
          (checkExprInContext fuel st fn bv left skip).2 right true).1,
       (checkExprInContext fuel st fn
          (checkExprInContext fuel st fn bv left skip).2 right true).2))
    ∧ ∀ (fuel2 : Nat) (bv2 : List String) (name : String) (nloc : Loc),
        looksLikeEnumValue name = true →
        (checkExprInContext fuel2 st fn bv2 (.ident name nloc) true).1 = [] := by
  constructor
  · rcases hop with rfl | rfl | rfl <;> simp [checkExprInContext]
  · intro fuel2 bv2 name nloc hname
    cases fuel2 with
    | zero => rfl
    | succ f2 =>
      simp only [checkExprInContext]
      split
      · simp [hname]
      · rfl

theorem binary_rhs_enum_context_witness :
    (checkExprInContext 7 stUser "foo.allium" ["u"]
      (.ident "pending__x" ⟨1, 9⟩) true).1 = [] :=
  (binary_rhs_enum_context 5 stUser "foo.allium" [] .opIn (.ident "a" ⟨1, 1⟩)
    (.ident "b" ⟨1, 3⟩) ⟨1, 2⟩ false (Or.inr (Or.inr rfl))).2 7 ["u"]
    "pending__x" ⟨1, 9⟩ (by decide)

/-- C9 (confirmed): checking a lambda leaves the reference checker's
bound-variable set unchanged — membership of every name other than the
parameter is as before, and a previously-bound parameter stays bound (in
fact the set comes back exactly as it went in). -/
theorem lambda_scope_restored
    (fuel : Nat) (st : SymbolTable) (fn : String) (bv : List String)
    (param : String) (body : Expr) (loc : Loc) (skip : Bool) :
    ((checkExprInContext fuel st fn bv (.lambda param body loc) skip).2 = bv)
    ∧ (∀ name, name ≠ param →
        (name ∈ (checkExprInContext fuel st fn bv (.lambda param body loc) skip).2
          ↔ name ∈ bv))
    ∧ (param ∈ bv →
        param ∈ (checkExprInContext fuel st fn bv (.lambda param body loc) skip).2) := by
  have h := checkExprInContext_bv fuel st fn (.lambda param body loc) bv skip
  refine ⟨h, ?_, ?_⟩
  · intro name hne
    rw [h]
  · intro hmem
    rw [h]
    exact hmem

theorem lambda_scope_restored_witness :
    ("x" : String) ≠ "u"
    ∧ (("u" : String) ∈ (checkExprInContext 5 stUser "foo.allium" ["x", "u"]
        (.lambda "x" (.ident "x" ⟨1, 6⟩) ⟨1, 1⟩) false).2 ↔ ("u" : String) ∈ ["x", "u"]) :=
  ⟨by decide,
   (lambda_scope_restored 5 stUser "foo.allium" ["x", "u"] "x" (.ident "x" ⟨1, 6⟩)
     ⟨1, 1⟩ false).2.1 "u" (by decide)⟩

/-- C6 (confirmed): an entity-created field initialiser whose value is an
identifier outside the field's declared enum members is flagged if and
only if some member lies within case-insensitive Levenshtein distance 2
of it; with no such candidate the initialiser is left unflagged. -/
theorem entity_created_enum_suggestion_iff
    (fuel : Nat) (st : SymbolTable) (fn : String) (E f n : String)
    (nloc eloc : Loc) (ctxE : Option String) (ti : TypeInfo) (fi : FieldInfo)
    (vs : List String)
    (hty : mapLookup st.types E = some ti)
    (hf : mapLookup ti.fields f = some fi)
    (he : fi.enumValues = some vs)
    (hmem : ¬ n ∈ vs) :
    (checkExprForEnums (fuel+1) st fn (.entityCreated E [(f, .ident n nloc)] eloc) ctxE ≠ []
      ↔ ∃ v ∈ vs, levenshtein (lowerStr n) (lowerStr v) ≤ 2)
    ∧ (findSimilar n vs = none →
        checkCreatedFieldAssign st fn ti (f, .ident n nloc) = []) := by
  have hident : ∀ fl, checkExprForEnums fl st fn (.ident n nloc) ctxE = [] := by
    intro fl
    cases fl <;> rfl
  have hc : vs.contains n = false := by simpa using hmem
  have hcfa : checkCreatedFieldAssign st fn ti (f, .ident n nloc) =
      (match findSimilar n vs with
       | some s => [mkDiag fn nloc.line nloc.col (invalidEnumMsg n f vs) (some s)]
       | none => []) := by
    simp only [checkCreatedFieldAssign, hf, he, hc]
    rfl
  have hstep : checkExprForEnums (fuel+1) st fn
      (.entityCreated E [(f, .ident n nloc)] eloc) ctxE =
      checkCreatedFieldAssign st fn ti (f, .ident n nloc) := by
    simp only [checkExprForEnums, hty, List.foldl_cons, List.foldl_nil,
      List.nil_append, hident, List.append_nil]
  constructor
  · rw [hstep, hcfa]
    cases hfs : findSimilar n vs with
    | some s =>
      constructor
      · intro _
        exact (findSimilar_isSome_iff n vs).mp (by rw [hfs]; rfl)
      · intro _
        simp
    | none =>
      constructor
      · intro hne
        exact absurd rfl hne
      · intro hex
        have hsome := (findSimilar_isSome_iff n vs).mpr hex
        rw [hfs] at hsome
        simp at hsome
  · intro hfs
    rw [hcfa, hfs]

theorem entity_created_enum_suggestion_iff_witness :
    checkExprForEnums 6 stUser "foo.allium"
      (.entityCreated "User" [("status", .ident "suspendd" ⟨2, 40⟩)] ⟨2, 30⟩) none ≠ [] :=
  (entity_created_enum_suggestion_iff 5 stUser "foo.allium" "User" "status"
    "suspendd" ⟨2, 40⟩ ⟨2, 30⟩ none _ _ _ (by rfl) (by rfl) (by rfl)
    (by decide)).1.mpr ⟨"suspended", by decide, by decide⟩

/-- C8 counterexample: the trigger `x.f(now) > y` has top-level operator
`>` and syntactically contains the identifier `now` (inside the call
argument), yet the parser classifies it as derived, not temporal — the
source containment check does not recurse into call arguments. -/
theorem c8_counterexample :
    parsedTriggerClasses (parse 300 (lex srcC8) "foo.allium") =
      [(false, true, true)] := by rfl

/-- C8 (corrected): a trigger parsed from an expression (neither binding
nor stimulus look-ahead matches) is temporal exactly when the top-level
operator is one of `<`, `<=`, `>`, `>=` and `exprContainsNow` holds —
the source predicate that recurses only into identifiers, binary
operands, and field-access objects, not into call arguments or the other
expression formers. -/
theorem parseTrigger_expr_classification
    (fuel : Nat) (toks : List Token) (fn : String) (pos : Nat) (e : Expr) (pos2 : Nat)
    (h1 : (atT toks pos .tIdent && atOffT toks pos 1 .tColon) = false)
    (h2 : (atT toks pos .tIdent && atOffT toks pos 1 .tLParen) = false)
    (h3 : parseExprF fuel toks fn pos = .ok (e, pos2)) :
    parseTriggerF (fuel+1) toks fn pos =
      .ok ((if topCmpOp e && exprContainsNow e then
              Trigger.temporal e (peekT toks pos 0).loc
            else Trigger.derived e (peekT toks pos 0).loc), pos2) := by
  cases hc : topCmpOp e && exprContainsNow e with
  | true =>
    simp only [Bool.and_eq_true] at hc
    simp [parseTriggerF, h1, h2, h3, hc.1, hc.2, Bind.bind, Except.bind]
  | false =>
    have hc2 : ¬(topCmpOp e = true ∧ exprContainsNow e = true) := by
      intro hab
      rw [hab.1, hab.2] at hc
      simp at hc
    simp [parseTriggerF, h1, h2, h3, hc2, Bind.bind, Except.bind]

theorem parseTrigger_expr_classification_witness :
    parseTriggerF 51 (lex "x < now".data) "w.allium" 0 =
      .ok (Trigger.temporal
        (.binary .opLt (.ident "x" ⟨1, 1⟩) (.ident "now" ⟨1, 5⟩) ⟨1, 3⟩) ⟨1, 1⟩, 3) :=
  parseTrigger_expr_classification 50 (lex "x < now".data) "w.allium" 0
    (.binary .opLt (.ident "x" ⟨1, 1⟩) (.ident "now" ⟨1, 5⟩) ⟨1, 3⟩) 3
    (by rfl) (by rfl) (by rfl)

theorem foldl_ident_clean
    (g : (List Diagnostic × List String) → Expr → (List Diagnostic × List String))
    (hg : ∀ (acc : List Diagnostic × List String) (nm : String) (lc : Loc),
      looksLikeEnumValue nm = true → g acc (.ident nm lc) = acc) :
    ∀ (l : List (String × Loc)) (acc : List Diagnostic × List String),
      (∀ p ∈ l, looksLikeEnumValue p.1 = true) →
      (l.map (fun p => Expr.ident p.1 p.2)).foldl g acc = acc := by
  intro l
  induction l with
  | nil => intro acc _; rfl
  | cons p rest ihp =>
    intro acc hall
    simp only [List.map_cons, List.foldl_cons]
    rw [hg acc p.1 p.2 (hall p (List.mem_cons_self p rest))]
    exact ihp acc (fun q hq => hall q (List.mem_cons_of_mem p hq))

theorem foldl_ident_acc (g : List Diagnostic → Expr → List Diagnostic)
    (hg : ∀ (acc : List Diagnostic) (nm : String) (lc : Loc), g acc (.ident nm lc) = acc) :
    ∀ (l : List (String × Loc)) (acc : List Diagnostic),
      (l.map (fun p => Expr.ident p.1 p.2)).foldl g acc = acc := by
  intro l
  induction l with
  | nil => intro acc; rfl
  | cons p rest ihp =>
    intro acc
    simp only [List.map_cons, List.foldl_cons]
    rw [hg acc p.1 p.2]
    exact ihp acc

/-- C10 (confirmed): for `x.f in [v1, ..., vn]` with `x` bound, `f` an
enum field of a declared type and every `vi` a lowercase-pattern
identifier outside the members, neither the reference checker (the `in`
right side and `__array` arguments run under the enum-context flag) nor
the enum checker (which looks only at `=` / `!=`) emits any diagnostic:
the typos go entirely unreported. -/
theorem in_array_enum_typos_unreported
    (fuel : Nat) (st : SymbolTable) (fn : String) (bv : List String)
    (x f T : String) (args : List (String × Loc))
    (xloc floc aloc cloc bloc : Loc)
    (ti : TypeInfo) (fi : FieldInfo) (vs : List String)
    (hx : vsHas bv x = true)
    (hty : mapLookup st.types T = some ti)
    (hf : mapLookup ti.fields f = some fi)
    (he : fi.enumValues = some vs)
    (hargs : ∀ p ∈ args, looksLikeEnumValue p.1 = true ∧ ¬ p.1 ∈ vs) :
    ((checkExprInContext (fuel+3) st fn bv
        (.binary .opIn (.fieldAccess (.ident x xloc) f floc)
          (.call (.ident "__array" aloc) (args.map (fun p => Expr.ident p.1 p.2)) cloc)
          bloc) false).1 = [])
    ∧ checkExprForEnums (fuel+3) st fn
        (.binary .opIn (.fieldAccess (.ident x xloc) f floc)
          (.call (.ident "__array" aloc) (args.map (fun p => Expr.ident p.1 p.2)) cloc)
          bloc) none = [] := by
  have hiB : isBuiltin "__array" = true := rfl
  constructor
  · simp only [checkExprInContext, hx, hiB, Bool.not_true, Bool.false_and, Bool.and_false,
      Bool.true_or]
    simp
    rw [foldl_ident_clean]
    · intro acc nm lc hnm
      simp [hnm]
    · intro p hp
      exact (hargs p hp).1
  · simp only [checkExprForEnums]
    simp
    rw [foldl_ident_acc]
    intro acc nm lc
    simp

theorem in_array_enum_typos_unreported_witness :
    ((checkExprInContext 8 stUser "foo.allium" ["x"]
        (.binary .opIn (.fieldAccess (.ident "x" ⟨2, 37⟩) "status" ⟨2, 41⟩)
          (.call (.ident "__array" ⟨2, 52⟩)
            [Expr.ident "activ" ⟨2, 53⟩, Expr.ident "suspnd" ⟨2, 60⟩] ⟨2, 52⟩)
          ⟨2, 49⟩) false).1 = [])
    ∧ checkExprForEnums 8 stUser "foo.allium"
        (.binary .opIn (.fieldAccess (.ident "x" ⟨2, 37⟩) "status" ⟨2, 41⟩)
          (.call (.ident "__array" ⟨2, 52⟩)
            [Expr.ident "activ" ⟨2, 53⟩, Expr.ident "suspnd" ⟨2, 60⟩] ⟨2, 52⟩)
          ⟨2, 49⟩) none = [] :=
  in_array_enum_typos_unreported 5 stUser "foo.allium" ["x"] "x" "status" "User"
    [("activ", ⟨2, 53⟩), ("suspnd", ⟨2, 60⟩)] ⟨2, 37⟩ ⟨2, 41⟩ ⟨2, 52⟩ ⟨2, 52⟩ ⟨2, 49⟩
    _ _ _ (by rfl) (by rfl) (by rfl) (by rfl) (by decide)

end Allium
